import Mathlib

/-
Verification of the voxel mesh builder (src/mesh_builder_wasm/src/lib.rs).

Shallow embedding conventions:
* f32 values are modelled as rationals (ℚ); the f32 literal 0.01 is modelled
  as 1/100 and all float arithmetic is exact rational arithmetic.
* Rust numeric casts: a float-to-integer `as` cast truncates toward zero and
  saturates at the target bounds; f32::round rounds half away from zero.
* JS typed arrays become Lean lists; a JS object with optionally present
  fields becomes a structure of Option fields, and a field never written by
  the source is `none` in the result structure.
* Rust HashMap iteration order is unspecified; the embedding realises it as
  association lists in insertion order.  Every property proved below is
  independent of that order.
* Out-of-range list reads (which would panic in Rust) are modelled by getD
  with the type's zero default; all claims are settled on in-range data.
-/

namespace MeshWasm

/-- Truncation toward zero of a rational, as performed by a Rust float-to-int cast. -/
def ratTrunc (q : ℚ) : ℤ := if 0 ≤ q then ⌊q⌋ else ⌈q⌉

/-- Saturation of an integer into the i16 range, as performed by an `as i16` cast
on a float value. -/
def i16Sat (n : ℤ) : ℤ := max (-32768) (min 32767 n)

/-- Saturation of an integer into the i8 range. -/
def i8Sat (n : ℤ) : ℤ := max (-128) (min 127 n)

/-- POSITION_SCALE = 1024.0; `(rx * POSITION_SCALE) as i16` from the source
(lines 667-669 and 930-932): scale by 1024, truncate toward zero, saturate. -/
def quantizePos (q : ℚ) : ℤ := i16Sat (ratTrunc (q * 1024))

/-- NORMAL_SCALE = 127.0; `(n * NORMAL_SCALE) as i8` from the source. -/
def quantizeNormal (q : ℚ) : ℤ := i8Sat (ratTrunc (q * 127))

/-- f32::round as used on normal components (lines 594-596): round half away
from zero. -/
def roundAway (q : ℚ) : ℤ := if 0 ≤ q then ⌊q + 1/2⌋ else ⌈q - 1/2⌉

/-- GeometryData (source lines 171-177): one geometry variant of a palette entry. -/
structure GeometryData where
  positions : List ℚ
  normals : List ℚ
  uvs : List ℚ
  indices : List ℕ
  materialIndex : ℕ
deriving DecidableEq

/-- PaletteEntryData (source lines 165-169). -/
structure PaletteEntryData where
  occlusionFlags : ℕ
  geometries : List GeometryData
  category : String
deriving DecidableEq

/-- The palette: a sparse-but-dense-indexed array (source line 158). -/
abbrev Palette := List (Option PaletteEntryData)

/-- One input voxel: an (x, y, z, paletteIndex) quadruple from the flat
Int32Array.  Palette indices are modelled as ℕ (the source casts the i32
to u32/usize; the API supplies non-negative indices). -/
structure Block where
  x : ℤ
  y : ℤ
  z : ℤ
  pal : ℕ
deriving DecidableEq

/-- Index-buffer element width of an output mesh. -/
inductive IndexWidth where
  | u16 : IndexWidth
  | u32 : IndexWidth
deriving DecidableEq

/-- One output mesh object.  `vertexCount` is an Option because the source
builds the JS object field-by-field with Reflect::set and not every code
path writes a vertexCount field; `none` models an absent field. -/
structure MeshResult where
  category : String
  positions : List ℤ
  normals : List ℤ
  uvs : List ℚ
  indices : List ℕ
  indexWidth : IndexWidth
  groups : List (ℕ × ℕ × ℕ)
  vertexCount : Option ℕ
deriving DecidableEq

/-- A build result: `{ meshes, origin }`. -/
structure BuildResult where
  meshes : List MeshResult
  origin : ℤ × ℤ × ℤ
deriving DecidableEq

/-- calculate_bounds (lines 484-508): min/max fold starting from the i32
extremes. -/
def calculateBounds (blocks : List Block) : ℤ × ℤ × ℤ × ℤ × ℤ × ℤ :=
  blocks.foldl
    (fun s b =>
      (min s.1 b.x, min s.2.1 b.y, min s.2.2.1 b.z,
       max s.2.2.2.1 b.x, max s.2.2.2.2.1 b.y, max s.2.2.2.2.2 b.z))
    (2147483647, 2147483647, 2147483647, -2147483648, -2147483648, -2147483648)

/-- get_index (lines 411-416): grid cell index with one cell of padding.
The source computes `(x - min) as usize + pad` with wrapping arithmetic;
for the reachable offsets (x ≥ min - 1) this equals `(x - min + 1).toNat`. -/
def gridIndex (minX minY minZ : ℤ) (strideY strideZ : ℕ) (x y z : ℤ) : ℕ :=
  (x - minX + 1).toNat + (y - minY + 1).toNat * strideY + (z - minZ + 1).toNat * strideZ

/-- Populating the voxel map (lines 419-426): cell value is paletteIndex + 1,
0 meaning empty; last write wins. -/
def buildVoxelMap (blocks : List Block) (minX minY minZ : ℤ)
    (strideY strideZ mapSize : ℕ) : List ℕ :=
  blocks.foldl
    (fun m b => m.set (gridIndex minX minY minZ strideY strideZ b.x b.y b.z) (b.pal + 1))
    (List.replicate mapSize 0)

/-- The flush check of the geometry-driven visibility test (lines 605-614),
an if-chain mirroring the source match arms in order. -/
def flushCheck (dx dy dz : ℤ) (v0x v0y v0z : ℚ) : Bool :=
  if dx = 1 ∧ dy = 0 ∧ dz = 0 then
    decide (|v0x - 1| < 1/100) || decide (|v0x - 1/2| < 1/100)
  else if dx = -1 ∧ dy = 0 ∧ dz = 0 then
    decide (|v0x| < 1/100) || decide (|v0x + 1/2| < 1/100)
  else if dx = 0 ∧ dy = 1 ∧ dz = 0 then
    decide (|v0y - 1| < 1/100) || decide (|v0y - 1/2| < 1/100)
  else if dx = 0 ∧ dy = -1 ∧ dz = 0 then
    decide (|v0y| < 1/100) || decide (|v0y + 1/2| < 1/100)
  else if dx = 0 ∧ dy = 0 ∧ dz = 1 then
    decide (|v0z - 1| < 1/100) || decide (|v0z - 1/2| < 1/100)
  else if dx = 0 ∧ dy = 0 ∧ dz = -1 then
    decide (|v0z| < 1/100) || decide (|v0z + 1/2| < 1/100)
  else false

/-- Mapping from a face direction to the bit index of the neighbor's face that
touches the current voxel (lines 625-633); 6 means "no axis direction". -/
def neighborFaceIndex (dx dy dz : ℤ) : ℕ :=
  if dx = 1 ∧ dy = 0 ∧ dz = 0 then 0
  else if dx = -1 ∧ dy = 0 ∧ dz = 0 then 1
  else if dx = 0 ∧ dy = 1 ∧ dz = 0 then 2
  else if dx = 0 ∧ dy = -1 ∧ dz = 0 then 3
  else if dx = 0 ∧ dy = 0 ∧ dz = 1 then 4
  else if dx = 0 ∧ dy = 0 ∧ dz = -1 then 5
  else 6

/-- The geometry-driven visibility test for the triangle starting at index
position j of a geometry instance (lines 582-653 of merge_category_geometries). -/
def triangleVisible (palette : Palette) (voxelMap : List ℕ)
    (getIdx : ℤ → ℤ → ℤ → ℕ) (geom : GeometryData)
    (px py pz : ℤ) (j : ℕ) : Bool :=
  let idx0 := geom.indices.getD j 0
  if geom.normals.length > idx0 * 3 + 2 then
    let nx := geom.normals.getD (idx0 * 3) 0
    let ny := geom.normals.getD (idx0 * 3 + 1) 0
    let nz := geom.normals.getD (idx0 * 3 + 2) 0
    let dx := roundAway nx
    let dy := roundAway ny
    let dz := roundAway nz
    if dx.natAbs + dy.natAbs + dz.natAbs = 1 then
      let v0x := geom.positions.getD (idx0 * 3) 0
      let v0y := geom.positions.getD (idx0 * 3 + 1) 0
      let v0z := geom.positions.getD (idx0 * 3 + 2) 0
      if flushCheck dx dy dz v0x v0y v0z then
        let neighborVal := voxelMap.getD (getIdx (px + dx) (py + dy) (pz + dz)) 0
        if neighborVal > 0 then
          match palette.getD (neighborVal - 1) none with
          | some neighborEntry =>
            let nfi := neighborFaceIndex dx dy dz
            if nfi < 6 then
              if neighborEntry.occlusionFlags &&& (1 <<< nfi) ≠ 0 then false else true
            else true
          | none => true
        else true
      else true
    else true
  else true

/-- The surviving index triples of one geometry instance (the culling loop,
lines 577-653).  The source walks j by 3; indices whose length is not a
multiple of 3 leave a trailing fragment unread. -/
def validIndicesOf (palette : Palette) (voxelMap : List ℕ)
    (getIdx : ℤ → ℤ → ℤ → ℕ) (geom : GeometryData) (px py pz : ℤ) : List ℕ :=
  (List.range (geom.indices.length / 3)).flatMap fun t =>
    if triangleVisible palette voxelMap getIdx geom px py pz (3 * t) then
      [geom.indices.getD (3 * t) 0, geom.indices.getD (3 * t + 1) 0,
       geom.indices.getD (3 * t + 2) 0]
    else []

/-- The quantized position components pushed for local vertex v of an instance
at voxel position (px,py,pz) (lines 660-669). -/
def vertexPos (geom : GeometryData) (px py pz ox oy oz : ℤ) (v : ℕ) : List ℤ :=
  [quantizePos (((px - ox : ℤ) : ℚ) + geom.positions.getD (v * 3) 0),
   quantizePos (((py - oy : ℤ) : ℚ) + geom.positions.getD (v * 3 + 1) 0),
   quantizePos (((pz - oz : ℤ) : ℚ) + geom.positions.getD (v * 3 + 2) 0)]

/-- The quantized normal components pushed for local vertex v (lines 672-680):
a vertex with missing normal data contributes the quantized (0,1,0). -/
def vertexNormal (geom : GeometryData) (v : ℕ) : List ℤ :=
  if geom.normals.length > v * 3 + 2 then
    [quantizeNormal (geom.normals.getD (v * 3) 0),
     quantizeNormal (geom.normals.getD (v * 3 + 1) 0),
     quantizeNormal (geom.normals.getD (v * 3 + 2) 0)]
  else [0, 127, 0]

/-- The UV components pushed for local vertex v (lines 683-689): a vertex with
missing UV data contributes (0,0). -/
def vertexUV (geom : GeometryData) (v : ℕ) : List ℚ :=
  if geom.uvs.length > v * 2 + 1 then
    [geom.uvs.getD (v * 2) 0, geom.uvs.getD (v * 2 + 1) 0]
  else [0, 0]

/-- The material-group update performed after each geometry instance
(lines 698-713) and after each greedy quad (lines 953-966): coalesce a
consecutive same-material run, otherwise close the current group and open
a new one. -/
def updateGroups (groups : List (ℕ × ℕ × ℕ)) (current : Option (ℕ × ℕ × ℕ))
    (indexStart indexCount mat : ℕ) : List (ℕ × ℕ × ℕ) × Option (ℕ × ℕ × ℕ) :=
  match current with
  | some (s, c, m) =>
    if m = mat then (groups, some (s, c + indexCount, m))
    else (groups ++ [(s, c, m)], some (indexStart, indexCount, mat))
  | none => (groups, some (indexStart, indexCount, mat))

/-- Running buffers of the merge loop (the local mut variables of
merge_category_geometries, lines 563-570, also reused for the greedy
assembly loop, lines 894-900). -/
structure MergeState where
  positions : List ℤ
  normals : List ℤ
  uvs : List ℚ
  indices : List ℕ
  groups : List (ℕ × ℕ × ℕ)
  currentGroup : Option (ℕ × ℕ × ℕ)
  vOffset : ℕ
deriving DecidableEq

/-- The empty initial merge state. -/
def MergeState.initial : MergeState := ⟨[], [], [], [], [], none, 0⟩

/-- Processing of one geometry instance in the merge loop (lines 573-716):
cull, skip the instance entirely when no triangle survives, otherwise copy
all local vertices quantized and the surviving indices offset by the running
vertex count, and update the material groups. -/
def mergeInstance (palette : Palette) (voxelMap : List ℕ)
    (getIdx : ℤ → ℤ → ℤ → ℕ) (ox oy oz : ℤ)
    (st : MergeState) (inst : ℤ × ℤ × ℤ × GeometryData × ℕ) : MergeState :=
  let px := inst.1
  let py := inst.2.1
  let pz := inst.2.2.1
  let geom := inst.2.2.2.1
  let numLocalVerts := geom.positions.length / 3
  let valid := validIndicesOf palette voxelMap getIdx geom px py pz
  if valid = [] then st
  else
    let indexStart := st.indices.length
    let gc := updateGroups st.groups st.currentGroup indexStart valid.length geom.materialIndex
    { positions := st.positions ++ (List.range numLocalVerts).flatMap (vertexPos geom px py pz ox oy oz)
      normals := st.normals ++ (List.range numLocalVerts).flatMap (vertexNormal geom)
      uvs := st.uvs ++ (List.range numLocalVerts).flatMap (vertexUV geom)
      indices := st.indices ++ valid.map (· + st.vOffset)
      groups := gc.1
      currentGroup := gc.2
      vOffset := st.vOffset + numLocalVerts }

/-- The category tag of a block's palette entry, if the entry is present. -/
def catOf (palette : Palette) (p : ℕ) : Option String :=
  match palette.getD p none with
  | some e => some e.category
  | none => none

/-- The block list collected under key p of the per-category palette map
(lines 432-446): blocks with palette index p whose entry has category c,
in input order. -/
def blocksFor (palette : Palette) (blocks : List Block) (c : String) (p : ℕ) :
    List Block :=
  blocks.filter fun b => decide (b.pal = p) && decide (catOf palette b.pal = some c)

/-- The distinct palette indices contributing to category c. -/
def palsFor (palette : Palette) (blocks : List Block) (c : String) : List ℕ :=
  ((blocks.filter fun b => decide (catOf palette b.pal = some c)).map (·.pal)).dedup

/-- The palette indices of a category sorted ascending (lines 534-536). -/
def sortedPals (palette : Palette) (blocks : List Block) (c : String) : List ℕ :=
  (palsFor palette blocks c).insertionSort (· ≤ ·)

/-- The geometry instances of a category in processing order (lines 531-556):
palette indices sorted ascending, blocks in input order within one index,
geometry variants in catalog order. -/
def instancesFor (palette : Palette) (blocks : List Block) (c : String) :
    List (ℤ × ℤ × ℤ × GeometryData × ℕ) :=
  (sortedPals palette blocks c).flatMap fun p =>
    match palette.getD p none with
    | some e =>
      (blocksFor palette blocks c p).flatMap fun b =>
        e.geometries.map fun g => (b.x, b.y, b.z, g, e.occlusionFlags)
    | none => []

/-- merge_category_geometries (lines 510-763).  Returns none when the first
counting pass finds no vertices.  The result object does NOT receive a
vertexCount field (lines 753-762 set only category/positions/normals/uvs/
indices/groups); index width is chosen from the final running vertex count
v_offset (line 732). -/
def mergeCategoryGeometries (palette : Palette) (c : String) (blocks : List Block)
    (voxelMap : List ℕ) (getIdx : ℤ → ℤ → ℤ → ℕ) (ox oy oz : ℤ) :
    Option MeshResult :=
  let instances := instancesFor palette blocks c
  let totalVerts :=
    (instances.map fun i : ℤ × ℤ × ℤ × GeometryData × ℕ =>
      i.2.2.2.1.positions.length / 3).sum
  if totalVerts = 0 then none
  else
    let st := instances.foldl (mergeInstance palette voxelMap getIdx ox oy oz)
      MergeState.initial
    some
      { category := c
        positions := st.positions
        normals := st.normals
        uvs := st.uvs
        indices := st.indices
        indexWidth := if st.vOffset > 65535 then IndexWidth.u32 else IndexWidth.u16
        groups := st.groups ++ st.currentGroup.toList
        vertexCount := none }

/-- create_empty_result (lines 765-774): empty mesh list with origin (0,0,0)
regardless of the requested origin. -/
def createEmptyResult : BuildResult := ⟨[], (0, 0, 0)⟩

/-- The categories present among the blocks (the keys of category_batches,
lines 429-446; HashMap order realised as an insertion-order association,
made deterministic by dedup). -/
def categoriesOf (palette : Palette) (blocks : List Block) : List String :=
  (blocks.filterMap fun b => catOf palette b.pal).dedup

/-- build_chunk (lines 381-482). -/
def buildChunk (palette : Palette) (blocks : List Block) (ox oy oz : ℤ) :
    BuildResult :=
  if blocks.length = 0 then createEmptyResult
  else
    let bounds := calculateBounds blocks
    let minX := bounds.1
    let minY := bounds.2.1
    let minZ := bounds.2.2.1
    let sizeX := (bounds.2.2.2.1 - minX + 1).toNat
    let sizeY := (bounds.2.2.2.2.1 - minY + 1).toNat
    let sizeZ := (bounds.2.2.2.2.2 - minZ + 1).toNat
    let strideY := sizeX + 2
    let strideZ := (sizeX + 2) * (sizeY + 2)
    let mapSize := strideZ * (sizeZ + 2)
    let voxelMap := buildVoxelMap blocks minX minY minZ strideY strideZ mapSize
    let getIdx := gridIndex minX minY minZ strideY strideZ
    let meshes := (categoriesOf palette blocks).filterMap fun c =>
      mergeCategoryGeometries palette c blocks voxelMap getIdx ox oy oz
    ⟨meshes, (ox, oy, oz)⟩

/-- FaceDir (source lines 17-25). -/
inductive FaceDir where
  | posX : FaceDir
  | negX : FaceDir
  | posY : FaceDir
  | negY : FaceDir
  | posZ : FaceDir
  | negZ : FaceDir
deriving DecidableEq

/-- FaceDir::normal (lines 28-37), as exact rationals. -/
def FaceDir.normalQ : FaceDir → ℚ × ℚ × ℚ
  | .posX => (1, 0, 0)
  | .negX => (-1, 0, 0)
  | .posY => (0, 1, 0)
  | .negY => (0, -1, 0)
  | .posZ => (0, 0, 1)
  | .negZ => (0, 0, -1)

/-- FaceDir::delta (lines 39-48). -/
def FaceDir.delta : FaceDir → ℤ × ℤ × ℤ
  | .posX => (1, 0, 0)
  | .negX => (-1, 0, 0)
  | .posY => (0, 1, 0)
  | .negY => (0, -1, 0)
  | .posZ => (0, 0, 1)
  | .negZ => (0, 0, -1)

/-- FaceDir::opposite_occlusion_index (lines 63-72): the neighbor's face bit
that faces back toward the current voxel. -/
def FaceDir.oppositeOcclusionIndex : FaceDir → ℕ
  | .posX => 0
  | .negX => 1
  | .posY => 2
  | .negY => 3
  | .posZ => 4
  | .negZ => 5

/-- GreedyFace (lines 77-87); the uv fields are stored but never read by the
emission code. -/
structure GreedyFace where
  x : ℤ
  y : ℤ
  z : ℤ
  materialIndex : ℕ
  uvMin : ℚ × ℚ
  uvMax : ℚ × ℚ
deriving DecidableEq

/-- MergedQuad (lines 90-98); width/height along the two axes perpendicular
to the face normal, always at least 1. -/
structure MergedQuad where
  x : ℤ
  y : ℤ
  z : ℤ
  width : ℕ
  height : ℕ
deriving DecidableEq

/-- The grid-driven visibility test of the greedy path (lines 861-878):
visible iff the neighbor cell is empty or the neighbor's entry lacks the
occluding bit on its facing side. -/
def faceVisibleGreedy (palette : Palette) (voxelMap : List ℕ)
    (getIdx : ℤ → ℤ → ℤ → ℕ) (bx b_y bz : ℤ) (dir : FaceDir) : Bool :=
  let d := dir.delta
  let neighborVal := voxelMap.getD (getIdx (bx + d.1) (b_y + d.2.1) (bz + d.2.2)) 0
  if neighborVal > 0 then
    match palette.getD (neighborVal - 1) none with
    | some neighborEntry =>
      decide (neighborEntry.occlusionFlags &&& (1 <<< dir.oppositeOcclusionIndex) = 0)
    | none => true
  else true

/-- Pushing one value into an insertion-ordered association of lists (the
embedding of HashMap::entry(..).or_default().push(..)). -/
def assocPush {κ α : Type} [DecidableEq κ] (m : List (κ × List α)) (k : κ)
    (a : α) : List (κ × List α) :=
  if m.any fun e => decide (e.1 = k) then
    m.map fun e => if e.1 = k then (e.1, e.2 ++ [a]) else e
  else m ++ [(k, [a])]

/-- The fixed direction scan order (lines 831-835). -/
def directions : List FaceDir :=
  [.posX, .negX, .posY, .negY, .posZ, .negZ]

/-- Face collection of the greedy path (lines 838-891): for every solid block
and every direction, record a visible face keyed by (direction, material of
the first geometry variant). -/
def collectFaces (palette : Palette) (blocks : List Block) (voxelMap : List ℕ)
    (getIdx : ℤ → ℤ → ℤ → ℕ) : List ((FaceDir × ℕ) × List GreedyFace) :=
  blocks.foldl
    (fun m b =>
      match palette.getD b.pal none with
      | none => m
      | some e =>
        if e.category ≠ "solid" then m
        else
          let mat := ((e.geometries.head?.map fun g => g.materialIndex)).getD 0
          directions.foldl
            (fun m dir =>
              if faceVisibleGreedy palette voxelMap getIdx b.x b.y b.z dir then
                assocPush m (dir, mat) ⟨b.x, b.y, b.z, mat, (0, 0), (1, 1)⟩
              else m)
            m)
    []

/-- Partitioning a face group by the coordinate along the face's normal axis
(lines 1033-1041), keeping the (u,v) plane coordinates. -/
def layersOf (dir : FaceDir) (faces : List GreedyFace) :
    List (ℤ × List (ℤ × ℤ)) :=
  faces.foldl
    (fun m f =>
      match dir with
      | .posY | .negY => assocPush m f.y (f.x, f.z)
      | .posX | .negX => assocPush m f.x (f.y, f.z)
      | .posZ | .negZ => assocPush m f.z (f.x, f.y))
    []

/-- Width expansion of the greedy scan (lines 1077-1080), with fuel bounding
the loop (the source loop runs at most uSize iterations). -/
def expandWidth (mask : List Bool) (uSize vIdx uIdx : ℕ) : ℕ → ℕ → ℕ
  | 0, width => width
  | fuel + 1, width =>
    if uIdx + width < uSize ∧ mask.getD (vIdx * uSize + uIdx + width) false = true then
      expandWidth mask uSize vIdx uIdx fuel (width + 1)
    else width

/-- Whether an entire width-wide row is occupied (lines 1085-1090). -/
def rowFilled (mask : List Bool) (uSize vIdx uIdx width : ℕ) : Bool :=
  (List.range width).all fun w => mask.getD (vIdx * uSize + uIdx + w) false

/-- Height expansion of the greedy scan (lines 1083-1092), fuel-bounded. -/
def expandHeight (mask : List Bool) (uSize vSize vIdx uIdx width : ℕ) :
    ℕ → ℕ → ℕ
  | 0, height => height
  | fuel + 1, height =>
    if vIdx + height < vSize ∧ rowFilled mask uSize (vIdx + height) uIdx width = true then
      expandHeight mask uSize vSize vIdx uIdx width fuel (height + 1)
    else height

/-- Clearing a consumed rectangle from the mask (lines 1095-1099). -/
def clearRect (mask : List Bool) (uSize vIdx uIdx width height : ℕ) :
    List Bool :=
  (List.range height).foldl
    (fun m h =>
      (List.range width).foldl
        (fun m w => m.set ((vIdx + h) * uSize + uIdx + w) false) m)
    mask

/-- The world coordinates of a found rectangle (lines 1102-1109). -/
def quadCoords (dir : FaceDir) (layer uWorld vWorld : ℤ) : ℤ × ℤ × ℤ :=
  match dir with
  | .posY | .negY => (uWorld, layer, vWorld)
  | .posX | .negX => (layer, uWorld, vWorld)
  | .posZ | .negZ => (uWorld, vWorld, layer)

/-- One row of the greedy rectangle scan (lines 1068-1118), fuel-bounded
(u_idx advances by at least 1 per iteration, so uSize fuel suffices). -/
def scanRow (dir : FaceDir) (layer : ℤ) (uMin vMin : ℤ) (uSize vSize vIdx : ℕ) :
    ℕ → ℕ → List Bool → List MergedQuad → List MergedQuad × List Bool
  | 0, _, mask, acc => (acc, mask)
  | fuel + 1, uIdx, mask, acc =>
    if uIdx < uSize then
      if mask.getD (vIdx * uSize + uIdx) false = false then
        scanRow dir layer uMin vMin uSize vSize vIdx fuel (uIdx + 1) mask acc
      else
        let width := expandWidth mask uSize vIdx uIdx uSize 1
        let height := expandHeight mask uSize vSize vIdx uIdx width vSize 1
        let mask1 := clearRect mask uSize vIdx uIdx width height
        let c := quadCoords dir layer ((uIdx : ℤ) + uMin) ((vIdx : ℤ) + vMin)
        scanRow dir layer uMin vMin uSize vSize vIdx fuel (uIdx + width)
          mask1 (acc ++ [⟨c.1, c.2.1, c.2.2, width, height⟩])
    else (acc, mask)

/-- The per-layer 2-D greedy pass (lines 1055-1120): build the occupancy mask
then scan rows top-to-bottom, threading the mask across rows. -/
def scanLayer (dir : FaceDir) (layer : ℤ) (uMin vMin : ℤ) (uSize vSize : ℕ)
    (coords : List (ℤ × ℤ)) : List MergedQuad :=
  let mask := coords.foldl
    (fun m uv =>
      let ui := (uv.1 - uMin).toNat
      let vi := (uv.2 - vMin).toNat
      if ui < uSize ∧ vi < vSize then m.set (vi * uSize + ui) true else m)
    (List.replicate (uSize * vSize) false)
  ((List.range vSize).foldl
    (fun st vIdx => scanRow dir layer uMin vMin uSize vSize vIdx uSize 0 st.2 st.1)
    ([], mask)).1

/-- greedy_merge_faces (lines 1019-1123). -/
def greedyMergeFaces (dir : FaceDir) (faces : List GreedyFace)
    (minX minY minZ maxX maxY maxZ : ℤ) : List MergedQuad :=
  let uvBounds : ℤ × ℤ × ℤ × ℤ :=
    match dir with
    | .posY | .negY => (minX, maxX, minZ, maxZ)
    | .posX | .negX => (minY, maxY, minZ, maxZ)
    | .posZ | .negZ => (minX, maxX, minY, maxY)
  let uMin := uvBounds.1
  let vMin := uvBounds.2.2.1
  let uSize := (uvBounds.2.1 - uMin + 1).toNat
  let vSize := (uvBounds.2.2.2 - vMin + 1).toNat
  (layersOf dir faces).flatMap fun l =>
    scanLayer dir l.1 uMin vMin uSize vSize l.2

/-- quad_vertices (lines 1126-1177): the direction-specific corner table. -/
def quadVertices (dir : FaceDir) (quad : MergedQuad) :
    (ℤ × ℤ × ℤ) × (ℤ × ℤ × ℤ) × (ℤ × ℤ × ℤ) × (ℤ × ℤ × ℤ) :=
  let x := quad.x
  let y := quad.y
  let z := quad.z
  let w : ℤ := quad.width
  let h : ℤ := quad.height
  match dir with
  | .posY => ((x, y + 1, z), (x + w, y + 1, z), (x + w, y + 1, z + h), (x, y + 1, z + h))
  | .negY => ((x, y, z + h), (x + w, y, z + h), (x + w, y, z), (x, y, z))
  | .posX => ((x + 1, y, z), (x + 1, y, z + h), (x + 1, y + w, z + h), (x + 1, y + w, z))
  | .negX => ((x, y, z + h), (x, y, z), (x, y + w, z), (x, y + w, z + h))
  | .posZ => ((x + w, y, z + 1), (x, y, z + 1), (x, y + h, z + 1), (x + w, y + h, z + 1))
  | .negZ => ((x, y, z), (x + w, y, z), (x + w, y + h, z), (x, y + h, z))

/-- Emission of one merged quad (lines 915-967): 4 corner vertices with the
direction normal and UVs scaled by the quad size, two triangles 0-1-2 and
0-2-3, and the same consecutive-material group coalescing as the naive path. -/
def emitQuad (dir : FaceDir) (mat : ℕ) (ox oy oz : ℤ) (st : MergeState)
    (quad : MergedQuad) : MergeState :=
  let vs := quadVertices dir quad
  let n := dir.normalQ
  let nq : List ℤ := [quantizeNormal n.1, quantizeNormal n.2.1, quantizeNormal n.2.2]
  let corners : List ((ℤ × ℤ × ℤ) × ℚ × ℚ) :=
    [(vs.1, 0, 0), (vs.2.1, (quad.width : ℚ), 0),
     (vs.2.2.1, (quad.width : ℚ), (quad.height : ℚ)), (vs.2.2.2, 0, (quad.height : ℚ))]
  let indexStart := st.indices.length
  let gc := updateGroups st.groups st.currentGroup indexStart 6 mat
  { positions := st.positions ++ corners.flatMap fun cr =>
      [quantizePos (((cr.1.1 - ox : ℤ) : ℚ)), quantizePos (((cr.1.2.1 - oy : ℤ) : ℚ)),
       quantizePos (((cr.1.2.2 - oz : ℤ) : ℚ))]
    normals := st.normals ++ corners.flatMap fun _ => nq
    uvs := st.uvs ++ corners.flatMap fun cr => [cr.2.1, cr.2.2]
    indices := st.indices ++
      [st.vOffset, st.vOffset + 1, st.vOffset + 2, st.vOffset, st.vOffset + 2, st.vOffset + 3]
    groups := gc.1
    currentGroup := gc.2
    vOffset := st.vOffset + 4 }

/-- create_mesh_result (lines 1233-1281): index width chosen from the passed
vertex count; no vertexCount field is written on the result object. -/
def createMeshResult (c : String) (positions normals : List ℤ) (uvs : List ℚ)
    (indices : List ℕ) (groups : List (ℕ × ℕ × ℕ)) (vertexCount : ℕ) :
    MeshResult :=
  { category := c
    positions := positions
    normals := normals
    uvs := uvs
    indices := indices
    indexWidth := if vertexCount > 65535 then IndexWidth.u32 else IndexWidth.u16
    groups := groups
    vertexCount := none }

/-- The non-solid categories present among the blocks (lines 1192-1211). -/
def categoriesOfNonSolid (palette : Palette) (blocks : List Block) :
    List String :=
  (blocks.filterMap fun b =>
    match catOf palette b.pal with
    | some c => if c = "solid" then none else some c
    | none => none).dedup

/-- build_non_solid_blocks (lines 1180-1230): the naive merger run over the
non-solid categories. -/
def buildNonSolidBlocks (palette : Palette) (blocks : List Block)
    (voxelMap : List ℕ) (getIdx : ℤ → ℤ → ℤ → ℕ) (ox oy oz : ℤ) :
    List MeshResult :=
  (categoriesOfNonSolid palette blocks).filterMap fun c =>
    mergeCategoryGeometries palette c blocks voxelMap getIdx ox oy oz

/-- build_chunk_greedy (lines 781-1016). -/
def buildChunkGreedy (palette : Palette) (blocks : List Block) (ox oy oz : ℤ) :
    BuildResult :=
  if blocks.length = 0 then createEmptyResult
  else
    let bounds := calculateBounds blocks
    let minX := bounds.1
    let minY := bounds.2.1
    let minZ := bounds.2.2.1
    let maxX := bounds.2.2.2.1
    let maxY := bounds.2.2.2.2.1
    let maxZ := bounds.2.2.2.2.2
    let sizeX := (maxX - minX + 1).toNat
    let sizeY := (maxY - minY + 1).toNat
    let sizeZ := (maxZ - minZ + 1).toNat
    let strideY := sizeX + 2
    let strideZ := (sizeX + 2) * (sizeY + 2)
    let mapSize := strideZ * (sizeZ + 2)
    let voxelMap := buildVoxelMap blocks minX minY minZ strideY strideZ mapSize
    let getIdx := gridIndex minX minY minZ strideY strideZ
    let faceGroups := collectFaces palette blocks voxelMap getIdx
    let st := faceGroups.foldl
      (fun st g =>
        if g.2 = [] then st
        else
          let quads := greedyMergeFaces g.1.1 g.2 minX minY minZ maxX maxY maxZ
          quads.foldl (emitQuad g.1.1 g.1.2 ox oy oz) st)
      MergeState.initial
    let groups := st.groups ++ st.currentGroup.toList
    let nonSolid := buildNonSolidBlocks palette blocks voxelMap getIdx ox oy oz
    let meshes :=
      (if st.positions ≠ [] then
        [createMeshResult "solid" st.positions st.normals st.uvs st.indices groups st.vOffset]
      else []) ++ nonSolid
    ⟨meshes, (ox, oy, oz)⟩

/-- GeometryAccumulator (lines 180-188): per-category running buffers of
batch mode. -/
structure GeometryAccumulator where
  positions : List ℤ
  normals : List ℤ
  uvs : List ℚ
  indices : List ℕ
  groups : List (ℕ × ℕ × ℕ)
  vertexCount : ℕ
  indexCount : ℕ
deriving DecidableEq

/-- The builder's batch state (lines 157-162); the accumulator HashMap is
realised as an insertion-ordered association list. -/
structure BuilderState where
  accumulators : List (String × GeometryAccumulator)
  batchMode : Bool
deriving DecidableEq

/-- MeshBuilder::new (lines 193-199). -/
def initialBuilder : BuilderState := ⟨[], false⟩

/-- start_batch (lines 203-206). -/
def startBatch (_s : BuilderState) : BuilderState :=
  { accumulators := [], batchMode := true }

/-- clear_batch (lines 275-278). -/
def clearBatch (_s : BuilderState) : BuilderState :=
  { accumulators := [], batchMode := false }

/-- is_batch_mode (lines 282-284). -/
def isBatchMode (s : BuilderState) : Bool := s.batchMode

/-- finish_batch (lines 210-271): one mesh per accumulator with nonzero
vertex count, carrying a vertexCount field; 32-bit indices when the
accumulated vertex count exceeds 65535; origin reported as (0,0,0);
accumulators cleared and batch mode ended. -/
def finishBatch (s : BuilderState) : BuildResult × BuilderState :=
  (⟨s.accumulators.filterMap fun e =>
      if e.2.vertexCount = 0 then none
      else some
        { category := e.1
          positions := e.2.positions
          normals := e.2.normals
          uvs := e.2.uvs
          indices := e.2.indices
          indexWidth := if e.2.vertexCount > 65535 then IndexWidth.u32 else IndexWidth.u16
          groups := e.2.groups
          vertexCount := some e.2.vertexCount },
    (0, 0, 0)⟩,
   ⟨[], false⟩)

/-- The empty accumulator. -/
def emptyAccumulator : GeometryAccumulator := ⟨[], [], [], [], [], 0, 0⟩

/-- Modelled from the spec: the operation that folds one chunk's per-category
merged data into the open batch accumulators is not present in src/ (the
accumulators are declared and drained by finish_batch, but nothing under src/
writes to them).  Per spec section 4.7, chunk merges fold their
vertex/index/group data into the running buffers for each category, with
index values offset by the category's cumulative vertex count. -/
def mergeMeshIntoBatch (s : BuilderState) (m : MeshResult) : BuilderState :=
  let upd : GeometryAccumulator → GeometryAccumulator := fun acc =>
    { positions := acc.positions ++ m.positions
      normals := acc.normals ++ m.normals
      uvs := acc.uvs ++ m.uvs
      indices := acc.indices ++ m.indices.map (· + acc.vertexCount)
      groups := acc.groups ++ m.groups.map fun g =>
        (g.1 + acc.indexCount, g.2.1, g.2.2)
      vertexCount := acc.vertexCount + m.positions.length / 3
      indexCount := acc.indexCount + m.indices.length }
  { accumulators :=
      if s.accumulators.any fun e => decide (e.1 = m.category) then
        s.accumulators.map fun e =>
          if e.1 = m.category then (e.1, upd e.2) else e
      else s.accumulators ++ [(m.category, upd emptyAccumulator)]
    batchMode := s.batchMode }

/-- Modelled from the spec: merging one chunk's build result into the open
batch folds every per-category mesh of that chunk into its accumulator. -/
def mergeChunkIntoBatch (s : BuilderState) (r : BuildResult) : BuilderState :=
  r.meshes.foldl mergeMeshIntoBatch s

/-- The batch pipeline of claim C1: start a batch, merge two chunks built by
build_chunk, then finish the batch. -/
def buildTwoChunkBatch (palette : Palette) (b1 b2 : List Block)
    (o1x o1y o1z o2x o2y o2z : ℤ) : BuildResult :=
  (finishBatch
    (mergeChunkIntoBatch
      (mergeChunkIntoBatch (startBatch initialBuilder)
        (buildChunk palette b1 o1x o1y o1z))
      (buildChunk palette b2 o2x o2y o2z))).1

/-- Per-category vertex total of a build result: vertices of the quantized
position buffers of the meshes tagged with the category. -/
def categoryVertexTotal (r : BuildResult) (c : String) : ℕ :=
  ((r.meshes.filter fun m => decide (m.category = c)).map fun m =>
    m.positions.length / 3).sum

/-- Per-category index total of a build result. -/
def categoryIndexTotal (r : BuildResult) (c : String) : ℕ :=
  ((r.meshes.filter fun m => decide (m.category = c)).map fun m =>
    m.indices.length).sum

/-- A loosely-typed geometry record as received by update_palette; a field
whose JS value is absent or of the wrong type is none (the source's
get_float32_array / get_uint_array / as_f64 return their defaults then). -/
structure RawGeometry where
  positions : Option (List ℚ)
  normals : Option (List ℚ)
  uvs : Option (List ℚ)
  indices : Option (List ℕ)
  materialIndex : Option ℕ
deriving DecidableEq

/-- A loosely-typed palette record as received by update_palette; a numeric
field that is missing or not a number is none (Reflect::get(..).as_f64()
yields None for both). -/
structure RawEntry where
  index : Option ℕ
  occlusionFlags : Option ℕ
  category : Option String
  geometries : Option (List RawGeometry)
deriving DecidableEq

/-- Ingestion of one geometry record (lines 320-337): every missing field
degrades to its empty/zero default. -/
def ingestGeometry (r : RawGeometry) : GeometryData :=
  { positions := r.positions.getD []
    normals := r.normals.getD []
    uvs := r.uvs.getD []
    indices := r.indices.getD []
    materialIndex := r.materialIndex.getD 0 }

/-- Padding the palette so slot idx exists (lines 311-314). -/
def padTo (p : Palette) (idx : ℕ) : Palette :=
  p ++ List.replicate (idx + 1 - p.length) none

/-- Processing one item of the update_palette input (lines 293-348): items
that are not objects are skipped; index defaults to 0, occlusionFlags to 0,
category to "solid"; the slot at the entry's index is overwritten. -/
def applyRawEntry (p : Palette) (item : Option RawEntry) : Palette :=
  match item with
  | none => p
  | some e =>
    let idx := e.index.getD 0
    (padTo p idx).set idx
      (some
        { occlusionFlags := e.occlusionFlags.getD 0
          geometries := (e.geometries.getD []).map ingestGeometry
          category := e.category.getD "solid" })

/-- update_palette (lines 289-350): clear the palette, then fold every item. -/
def updatePalette (items : List (Option RawEntry)) : Palette :=
  items.foldl applyRawEntry []

/-- The flush predicate exactly as claim C2 words it: the position component
matching the face's axis is within 0.01 of the full boundary (1 for a
positive direction, 0 for a negative direction) or within 0.01 of the
half-height value 0.5. -/
def specFlushCheck (dx dy dz : ℤ) (v0x v0y v0z : ℚ) : Bool :=
  if dx = 1 ∧ dy = 0 ∧ dz = 0 then
    decide (|v0x - 1| < 1/100) || decide (|v0x - 1/2| < 1/100)
  else if dx = -1 ∧ dy = 0 ∧ dz = 0 then
    decide (|v0x - 0| < 1/100) || decide (|v0x - 1/2| < 1/100)
  else if dx = 0 ∧ dy = 1 ∧ dz = 0 then
    decide (|v0y - 1| < 1/100) || decide (|v0y - 1/2| < 1/100)
  else if dx = 0 ∧ dy = -1 ∧ dz = 0 then
    decide (|v0y - 0| < 1/100) || decide (|v0y - 1/2| < 1/100)
  else if dx = 0 ∧ dy = 0 ∧ dz = 1 then
    decide (|v0z - 1| < 1/100) || decide (|v0z - 1/2| < 1/100)
  else if dx = 0 ∧ dy = 0 ∧ dz = -1 then
    decide (|v0z - 0| < 1/100) || decide (|v0z - 1/2| < 1/100)
  else false

/-- The flush predicate with the half-height plane on the signed side, i.e.
claim C2 amended: for a negative direction the half-height check is against
-0.5, not 0.5. -/
def specFlushCheckSigned (dx dy dz : ℤ) (v0x v0y v0z : ℚ) : Bool :=
  if dx = 1 ∧ dy = 0 ∧ dz = 0 then
    decide (|v0x - 1| < 1/100) || decide (|v0x - 1/2| < 1/100)
  else if dx = -1 ∧ dy = 0 ∧ dz = 0 then
    decide (|v0x - 0| < 1/100) || decide (|v0x - (-(1/2))| < 1/100)
  else if dx = 0 ∧ dy = 1 ∧ dz = 0 then
    decide (|v0y - 1| < 1/100) || decide (|v0y - 1/2| < 1/100)
  else if dx = 0 ∧ dy = -1 ∧ dz = 0 then
    decide (|v0y - 0| < 1/100) || decide (|v0y - (-(1/2))| < 1/100)
  else if dx = 0 ∧ dy = 0 ∧ dz = 1 then
    decide (|v0z - 1| < 1/100) || decide (|v0z - 1/2| < 1/100)
  else if dx = 0 ∧ dy = 0 ∧ dz = -1 then
    decide (|v0z - 0| < 1/100) || decide (|v0z - (-(1/2))| < 1/100)
  else false

/-- The position quantization exactly as claim C3 words it: round(p * 1024),
with round the usual nearest-integer rounding. -/
def specPosEncode (q : ℚ) : ℤ := round (q * 1024)

/-- A palette and a one-voxel chunk whose geometry has a position component
equal to 1025/2048, used to separate truncation from rounding. -/
def truncProbeGeom : GeometryData :=
  { positions := [1025/2048, 0, 0]
    normals := []
    uvs := []
    indices := [0, 0, 0]
    materialIndex := 0 }

/-- The palette holding the truncation probe geometry. -/
def truncProbePalette : Palette :=
  [some { occlusionFlags := 0, geometries := [truncProbeGeom], category := "probe" }]

/-- A single flush +x triangle used as a culling probe. -/
def cullProbeGeom : GeometryData :=
  { positions := [1, 0, 0]
    normals := [1, 0, 0]
    uvs := []
    indices := [0, 0, 0]
    materialIndex := 0 }

/-- A fully occluding one-entry palette for the culling probe. -/
def cullProbePalette : Palette :=
  [some { occlusionFlags := 63, geometries := [], category := "solid" }]

/-- A raw entry with every field missing. -/
def emptyRawEntry : RawEntry := ⟨none, none, none, none⟩

/-- Vertex count of one geometry variant (the counting pass, lines 547-549). -/
def geomAllVerts (g : GeometryData) : ℕ := g.positions.length / 3

/-- With no occlusion anywhere, an instance of this variant survives culling
iff it has at least one whole triangle; a surviving instance contributes all
its whole-triangle indices. -/
def geomSurvIdx (g : GeometryData) : ℕ :=
  if 3 * (g.indices.length / 3) = 0 then 0 else 3 * (g.indices.length / 3)

/-- With no occlusion anywhere, the vertices a geometry instance contributes:
all local vertices if any triangle survives, none otherwise. -/
def geomSurvVerts (g : GeometryData) : ℕ :=
  if 3 * (g.indices.length / 3) = 0 then 0 else g.positions.length / 3

/-- Weight of one block: the weights of the geometry variants of its palette
entry, summed; blocks without an entry weigh nothing. -/
def blockW (w : GeometryData → ℕ) (palette : Palette) (b : Block) : ℕ :=
  match palette.getD b.pal none with
  | some e => (e.geometries.map w).sum
  | none => 0

/-- The blocks of one category, in input order. -/
def catBlocks (palette : Palette) (blocks : List Block) (c : String) :
    List Block :=
  blocks.filter fun b => decide (catOf palette b.pal = some c)

/-- Total weight of one category of a chunk. -/
def catW (w : GeometryData → ℕ) (palette : Palette) (blocks : List Block)
    (c : String) : ℕ :=
  ((catBlocks palette blocks c).map (blockW w palette)).sum

/-- A single flush +x triangle over three vertices, used by the batch
counterexample. -/
def triGeom : GeometryData :=
  { positions := [1, 0, 0, 1, 1, 0, 1, 0, 1]
    normals := [1, 0, 0, 1, 0, 0, 1, 0, 0]
    uvs := [0, 0, 0, 1, 1, 0]
    indices := [0, 1, 2]
    materialIndex := 5 }

/-- A palette where entry 1 occludes its west face: a flush +x triangle of a
block sitting directly west of a type-1 block is culled. -/
def cexPalette : Palette :=
  [some { occlusionFlags := 0, geometries := [triGeom], category := "custom" },
   some { occlusionFlags := 1, geometries := [triGeom], category := "custom" }]

/-- First counterexample chunk: one type-0 block at the origin. -/
def cexB1 : List Block := [⟨0, 0, 0, 0⟩]

/-- Second counterexample chunk: one type-1 block directly east of it. -/
def cexB2 : List Block := [⟨1, 0, 0, 1⟩]

def noOccPalette : Palette := [some ⟨0, [triGeom], "custom"⟩]

/-- The groups (start, count, materialIndex) tile the index range [s, e) in
order: each group's start is the running offset and the counts add up to
the range. -/
def chainFrom (s : ℕ) : List (ℕ × ℕ × ℕ) → ℕ → Prop
  | [], e => s = e
  | g :: gs, e => g.1 = s ∧ chainFrom (s + g.2.1) gs e

/-- Invariant of the running merge buffers: the attribute buffers hold
exactly vOffset vertices and the groups (closed ones plus the open one)
tile the index buffer. -/
def stInv (st : MergeState) : Prop :=
  st.positions.length = 3 * st.vOffset ∧
  st.normals.length = 3 * st.vOffset ∧
  st.uvs.length = 2 * st.vOffset ∧
  chainFrom 0 (st.groups ++ st.currentGroup.toList) st.indices.length

/-- Invariant of one batch accumulator entry: the vertex counter counts the
vertices of the accumulated position buffer. -/
def accEntryInv (e : String × GeometryAccumulator) : Prop :=
  e.2.vertexCount = e.2.positions.length / 3 ∧ e.2.positions.length % 3 = 0

/-- The mesh that building the truncation probe chunk produces. -/
def probeMesh : MeshResult :=
  ⟨"probe", [512, 0, 0], [0, 127, 0], [0, 0], [0, 0, 0], IndexWidth.u16,
   [(0, 3, 0)], none⟩

/-- A concrete builder state holding one accumulated solid vertex triple,
used to exercise finish_batch. -/
def batchProbeState : BuilderState :=
  ⟨[("solid", ⟨[0, 0, 0], [0, 127, 0], [0, 0], [0, 1, 2], [(0, 3, 0)], 1, 3⟩)], true⟩

/- ------------------------------------------------------------------ -/
/- Helper lemmas. -/
/- ------------------------------------------------------------------ -/

theorem ratTrunc_sub_lt_one (q : ℚ) : |((ratTrunc q : ℤ) : ℚ) - q| < 1 := by
  rw [ratTrunc]
  split
  · have h1 := Int.floor_le q
    have h2 := Int.sub_one_lt_floor q
    rw [abs_lt]
    constructor <;> push_cast <;> linarith
  · have h1 := Int.le_ceil q
    have h2 := Int.ceil_lt_add_one q
    rw [abs_lt]
    constructor <;> push_cast <;> linarith

theorem ratTrunc_mem_i16 (q : ℚ) (h : |q| < 32768) :
    -32768 ≤ ratTrunc q ∧ ratTrunc q ≤ 32767 := by
  rw [abs_lt] at h
  rw [ratTrunc]
  split
  · have h1 : (⌊q⌋ : ℚ) ≤ q := Int.floor_le q
    have h2 : (0 : ℤ) ≤ ⌊q⌋ := Int.floor_nonneg.mpr (by assumption)
    have h3 : (⌊q⌋ : ℚ) < 32768 := lt_of_le_of_lt h1 h.2
    have h4 : ⌊q⌋ < 32768 := by exact_mod_cast h3
    omega
  · have h0 : q < 0 := by linarith [not_le.mp (by assumption)]
    have h1 : q ≤ (⌈q⌉ : ℚ) := Int.le_ceil q
    have h2 : ⌈q⌉ ≤ 0 := Int.ceil_le.mpr (by push_cast; linarith)
    have h3 : (-32768 : ℚ) < (⌈q⌉ : ℚ) := lt_of_lt_of_le h.1 h1
    have h4 : (-32768 : ℤ) < ⌈q⌉ := by exact_mod_cast h3
    omega

theorem i16Sat_id (n : ℤ) (h1 : -32768 ≤ n) (h2 : n ≤ 32767) : i16Sat n = n := by
  rw [i16Sat, min_eq_right h2, max_eq_right h1]

/- ------------------------------------------------------------------ -/
/- Claim C8. -/
/- ------------------------------------------------------------------ -/

/-- Claim C8 (confirmed): for every requested origin triple, buildChunk and
buildChunkGreedy on an empty block list return a result with no meshes, and
this fast path reports origin (0,0,0) instead of echoing the requested
origin. -/
theorem claim_C8_empty_input (palette : Palette) (ox oy oz : ℤ) :
    buildChunk palette [] ox oy oz = ⟨[], (0, 0, 0)⟩ ∧
    buildChunkGreedy palette [] ox oy oz = ⟨[], (0, 0, 0)⟩ := by
  constructor <;> simp [buildChunk, buildChunkGreedy, createEmptyResult]

/- ------------------------------------------------------------------ -/
/- Claim C3. -/
/- ------------------------------------------------------------------ -/

/-- Claim C3 (counterexample): the encoder is not round(p * 1024).  At the
local position component p = 1025/2048 (so p * 1024 = 512.5) the naive
merger stores 512 — the component the chunk build emits is the truncation —
while the claimed round(p * 1024) is 513. -/
theorem claim_C3_counterexample :
    ((buildChunk truncProbePalette [⟨0, 0, 0, 0⟩] 0 0 0).meshes.map
      fun m => m.positions.getD 0 0) = [512] ∧
    specPosEncode (1025/2048) = 513 := by
  constructor
  · repeat first
    | rfl
    | (fail_if_no_progress
        norm_num [buildChunk, truncProbePalette, truncProbeGeom, calculateBounds,
          buildVoxelMap, gridIndex, categoriesOf, catOf, mergeCategoryGeometries,
          instancesFor, sortedPals, palsFor, blocksFor, List.dedup, List.insertionSort,
          List.orderedInsert, mergeInstance, validIndicesOf, triangleVisible, flushCheck,
          roundAway, neighborFaceIndex, vertexPos, vertexNormal, vertexUV, quantizePos,
          quantizeNormal, i16Sat, i8Sat, ratTrunc, updateGroups, MergeState.initial,
          List.range, List.range.loop, List.foldl, List.flatMap, List.filter,
          List.filterMap, abs_lt, le_abs, Int.toNat_ofNat, List.getElem?_set,
          List.getElem?_replicate, Int.floor_eq_iff])
    | (fail_if_no_progress
        simp [buildChunk, truncProbePalette, truncProbeGeom, calculateBounds,
          buildVoxelMap, gridIndex, categoriesOf, catOf, mergeCategoryGeometries,
          instancesFor, sortedPals, palsFor, blocksFor, List.dedup, List.insertionSort,
          List.orderedInsert, mergeInstance, validIndicesOf, triangleVisible, flushCheck,
          roundAway, neighborFaceIndex, vertexPos, vertexNormal, vertexUV, quantizePos,
          quantizeNormal, i16Sat, i8Sat, ratTrunc, updateGroups, MergeState.initial,
          List.range, List.range.loop, List.foldl, List.flatMap, List.filter,
          List.filterMap, abs_lt, le_abs, List.getElem?_set, List.getElem?_replicate])
  · rw [specPosEncode, round_eq]
    norm_num [Int.floor_eq_iff]

/-- Claim C3 (amended): each emitted local position component p is quantized
to the truncation toward zero of p * 1024 (saturated into the signed 16-bit
range, with no saturation occurring for |p| < 32), and for |p| < 32 the
decoded value quantizePos(p)/1024 is within 1/1024 of p. -/
theorem claim_C3_quantization (p : ℚ) (h : |p| < 32) :
    quantizePos p = ratTrunc (p * 1024) ∧
    |((quantizePos p : ℤ) : ℚ) / 1024 - p| ≤ 1 / 1024 := by
  have hq : |p * 1024| < 32768 := by
    rw [abs_mul]
    norm_num
    linarith [abs_lt.mp h]
  have hb := ratTrunc_mem_i16 (p * 1024) hq
  have hid : quantizePos p = ratTrunc (p * 1024) := by
    rw [quantizePos, i16Sat_id _ hb.1 hb.2]
  refine ⟨hid, ?_⟩
  rw [hid]
  have hdist := ratTrunc_sub_lt_one (p * 1024)
  have heq : ((ratTrunc (p * 1024) : ℤ) : ℚ) / 1024 - p
      = (((ratTrunc (p * 1024) : ℤ) : ℚ) - p * 1024) / 1024 := by ring
  rw [heq, abs_div]
  rw [show |(1024 : ℚ)| = 1024 by norm_num]
  rw [div_le_div_iff (by norm_num) (by norm_num)]
  linarith

/-- Witness for claim C3 at the concrete component p = 3/2. -/
theorem claim_C3_quantization_witness :
    quantizePos (3/2) = ratTrunc ((3/2 : ℚ) * 1024) ∧
    |((quantizePos (3/2) : ℤ) : ℚ) / 1024 - 3/2| ≤ 1 / 1024 :=
  claim_C3_quantization (3/2) (by norm_num [abs_lt])

/- ------------------------------------------------------------------ -/
/- Claim C2. -/
/- ------------------------------------------------------------------ -/

/-- Claim C2 (counterexample): for the negative-x face direction the claimed
half-height flush plane 0.5 does not match the code: at first-vertex
position component 0.5 the code's flush check is false while the claim's
predicate is true (the code tests against -0.5 for negative directions). -/
theorem claim_C2_counterexample :
    flushCheck (-1) 0 0 (1/2) 0 0 = false ∧
    specFlushCheck (-1) 0 0 (1/2) 0 0 = true := by
  constructor
  · simp only [flushCheck]
    norm_num [abs_lt, le_abs]
  · simp only [specFlushCheck]
    norm_num [abs_lt, le_abs]

/-- Claim C2 (amended): for every triangle whose first-vertex normal rounds
to a single-axis unit vector, the code's flush check agrees with the spec
predicate amended so that the half-height plane carries the direction's
sign (0.5 for a positive direction, -0.5 for a negative one); and whenever
the geometry-driven test culls a triangle (returns false), the rounded
first-vertex normal is a single-axis unit vector and the flush check holds,
so only flush triangles are eligible for neighbor-based culling. -/
theorem claim_C2_flush :
    (∀ (dx dy dz : ℤ), dx.natAbs + dy.natAbs + dz.natAbs = 1 →
      ∀ (x y z : ℚ), flushCheck dx dy dz x y z = specFlushCheckSigned dx dy dz x y z) ∧
    (∀ (palette : Palette) (voxelMap : List ℕ) (getIdx : ℤ → ℤ → ℤ → ℕ)
      (geom : GeometryData) (px py pz : ℤ) (j : ℕ),
      triangleVisible palette voxelMap getIdx geom px py pz j = false →
      ((roundAway (geom.normals.getD (geom.indices.getD j 0 * 3) 0)).natAbs +
       (roundAway (geom.normals.getD (geom.indices.getD j 0 * 3 + 1) 0)).natAbs +
       (roundAway (geom.normals.getD (geom.indices.getD j 0 * 3 + 2) 0)).natAbs = 1) ∧
      flushCheck (roundAway (geom.normals.getD (geom.indices.getD j 0 * 3) 0))
        (roundAway (geom.normals.getD (geom.indices.getD j 0 * 3 + 1) 0))
        (roundAway (geom.normals.getD (geom.indices.getD j 0 * 3 + 2) 0))
        (geom.positions.getD (geom.indices.getD j 0 * 3) 0)
        (geom.positions.getD (geom.indices.getD j 0 * 3 + 1) 0)
        (geom.positions.getD (geom.indices.getD j 0 * 3 + 2) 0) = true) := by
  constructor
  · intro dx dy dz h x y z
    have hdx : dx = 1 ∨ dx = -1 ∨ dx = 0 := by omega
    have hdy : dy = 1 ∨ dy = -1 ∨ dy = 0 := by omega
    have hdz : dz = 1 ∨ dz = -1 ∨ dz = 0 := by omega
    rcases hdx with h1 | h1 | h1 <;> rcases hdy with h2 | h2 | h2 <;>
        rcases hdz with h3 | h3 | h3 <;>
      subst h1 <;> subst h2 <;> subst h3 <;>
      first
      | omega
      | norm_num [flushCheck, specFlushCheckSigned, sub_neg_eq_add, sub_zero]
  · intro palette voxelMap getIdx geom px py pz j h
    rw [triangleVisible] at h
    split at h
    case isFalse => exact absurd h (by simp)
    case isTrue =>
      dsimp only at h
      split at h
      case isFalse => exact absurd h (by simp)
      case isTrue h1 =>
        split at h
        case isFalse => exact absurd h (by simp)
        case isTrue h2 => exact ⟨h1, h2⟩

/-- Witness for claim C2: the positive-x direction at position component 1
agrees between code and amended predicate, and a concretely culled triangle
(a flush +x face against a fully occluding neighbor) has a single-axis
rounded normal and a true flush check. -/
theorem claim_C2_flush_witness :
    flushCheck 1 0 0 1 0 0 = specFlushCheckSigned 1 0 0 1 0 0 ∧
    ((roundAway ((cullProbeGeom.normals).getD ((cullProbeGeom.indices.getD 0 0) * 3) 0)).natAbs +
     (roundAway ((cullProbeGeom.normals).getD ((cullProbeGeom.indices.getD 0 0) * 3 + 1) 0)).natAbs +
     (roundAway ((cullProbeGeom.normals).getD ((cullProbeGeom.indices.getD 0 0) * 3 + 2) 0)).natAbs = 1) ∧
    flushCheck (roundAway ((cullProbeGeom.normals).getD ((cullProbeGeom.indices.getD 0 0) * 3) 0))
      (roundAway ((cullProbeGeom.normals).getD ((cullProbeGeom.indices.getD 0 0) * 3 + 1) 0))
      (roundAway ((cullProbeGeom.normals).getD ((cullProbeGeom.indices.getD 0 0) * 3 + 2) 0))
      ((cullProbeGeom.positions).getD ((cullProbeGeom.indices.getD 0 0) * 3) 0)
      ((cullProbeGeom.positions).getD ((cullProbeGeom.indices.getD 0 0) * 3 + 1) 0)
      ((cullProbeGeom.positions).getD ((cullProbeGeom.indices.getD 0 0) * 3 + 2) 0) = true := by
  have hculled : triangleVisible cullProbePalette [1] (fun _ _ _ => 0)
      cullProbeGeom 0 0 0 0 = false := by
    repeat first
    | rfl
    | (fail_if_no_progress
        norm_num [triangleVisible, cullProbePalette, cullProbeGeom, flushCheck,
          roundAway, neighborFaceIndex, abs_lt, le_abs, Int.floor_eq_iff])
    | (fail_if_no_progress
        simp [triangleVisible, cullProbePalette, cullProbeGeom, flushCheck,
          roundAway, neighborFaceIndex, abs_lt, le_abs])
  have h2 := claim_C2_flush.2 cullProbePalette [1] (fun _ _ _ => 0)
    cullProbeGeom 0 0 0 0 hculled
  exact ⟨claim_C2_flush.1 1 0 0 (by decide) 1 0 0, h2.1, h2.2⟩

/- ------------------------------------------------------------------ -/
/- Claims C9 and C10. -/
/- ------------------------------------------------------------------ -/

/-- Processing one palette item always stores, at the item's effective index,
the entry with every missing field defaulted. -/
theorem applyRawEntry_stores (p : Palette) (e : RawEntry) :
    (applyRawEntry p (some e)).getD (e.index.getD 0) none =
      some { occlusionFlags := e.occlusionFlags.getD 0
             geometries := (e.geometries.getD []).map ingestGeometry
             category := e.category.getD "solid" } := by
  have hlen : e.index.getD 0 < (padTo p (e.index.getD 0)).length := by
    simp only [padTo, List.length_append, List.length_replicate]
    omega
  simp [applyRawEntry, List.getD_eq_getElem?_getD, List.getElem?_set, hlen]

/-- Claim C9 (confirmed): updatePalette stores something for every entry and
never fails; an entry with missing occlusionFlags is stored with flags 0 and
an entry with missing category is stored with category "solid"; at encode
time a vertex with missing normal data contributes the bytes (0,127,0) —
the quantization of the normal (0,1,0) — and a vertex with missing UV data
contributes UV (0,0). -/
theorem claim_C9_palette_defaults :
    (∀ (p : Palette) (e : RawEntry), e.occlusionFlags = none →
      ((applyRawEntry p (some e)).getD (e.index.getD 0) none).map
        (fun d => d.occlusionFlags) = some 0) ∧
    (∀ (p : Palette) (e : RawEntry), e.category = none →
      ((applyRawEntry p (some e)).getD (e.index.getD 0) none).map
        (fun d => d.category) = some "solid") ∧
    (∀ (geom : GeometryData) (v : ℕ), ¬ geom.normals.length > v * 3 + 2 →
      vertexNormal geom v = [0, 127, 0]) ∧
    (∀ (geom : GeometryData) (v : ℕ), ¬ geom.uvs.length > v * 2 + 1 →
      vertexUV geom v = [0, 0]) ∧
    quantizeNormal 0 = 0 ∧ quantizeNormal 1 = 127 := by
  refine ⟨?_, ?_, ?_, ?_, ?_, ?_⟩
  · intro p e h1
    rw [applyRawEntry_stores p e]
    simp [h1]
  · intro p e h1
    rw [applyRawEntry_stores p e]
    simp [h1]
  · intro geom v h
    rw [vertexNormal, if_neg h]
  · intro geom v h
    rw [vertexUV, if_neg h]
  · norm_num [quantizeNormal, ratTrunc, i8Sat]
  · norm_num [quantizeNormal, ratTrunc, i8Sat]

/-- Witness for claim C9 on the entry with every field missing and on a
geometry with no normal and no UV data. -/
theorem claim_C9_palette_defaults_witness :
    ((applyRawEntry [] (some emptyRawEntry)).getD (emptyRawEntry.index.getD 0) none).map
      (fun d => d.occlusionFlags) = some 0 ∧
    ((applyRawEntry [] (some emptyRawEntry)).getD (emptyRawEntry.index.getD 0) none).map
      (fun d => d.category) = some "solid" ∧
    vertexNormal truncProbeGeom 0 = [0, 127, 0] ∧
    vertexUV truncProbeGeom 0 = [0, 0] :=
  ⟨claim_C9_palette_defaults.1 [] emptyRawEntry rfl,
   claim_C9_palette_defaults.2.1 [] emptyRawEntry rfl,
   claim_C9_palette_defaults.2.2.1 truncProbeGeom 0 (by norm_num [truncProbeGeom]),
   claim_C9_palette_defaults.2.2.2.1 truncProbeGeom 0 (by norm_num [truncProbeGeom])⟩

/-- Claim C10 (confirmed): a palette entry whose index field is missing or
not a number (both make as_f64 return None) is stored at index 0, silently
replacing whatever any earlier entry of the same update stored at index 0. -/
theorem claim_C10_missing_index :
    (∀ (p : Palette) (e : RawEntry), e.index = none →
      (applyRawEntry p (some e)).getD 0 none =
        some { occlusionFlags := e.occlusionFlags.getD 0
               geometries := (e.geometries.getD []).map ingestGeometry
               category := e.category.getD "solid" }) ∧
    (∀ (items : List (Option RawEntry)) (e : RawEntry), e.index = none →
      (updatePalette (items ++ [some e])).getD 0 none =
        some { occlusionFlags := e.occlusionFlags.getD 0
               geometries := (e.geometries.getD []).map ingestGeometry
               category := e.category.getD "solid" }) := by
  have key : ∀ (p : Palette) (e : RawEntry), e.index = none →
      (applyRawEntry p (some e)).getD 0 none =
        some { occlusionFlags := e.occlusionFlags.getD 0
               geometries := (e.geometries.getD []).map ingestGeometry
               category := e.category.getD "solid" } := by
    intro p e h
    have := applyRawEntry_stores p e
    rwa [h] at this
  refine ⟨key, ?_⟩
  intro items e h
  rw [updatePalette, List.foldl_append]
  exact key _ e h

/- ------------------------------------------------------------------ -/
/- Group chain lemmas. -/
/- ------------------------------------------------------------------ -/

theorem chainFrom_append_one (gs : List (ℕ × ℕ × ℕ)) (g : ℕ × ℕ × ℕ)
    (s e : ℕ) :
    chainFrom s (gs ++ [g]) e ↔
      ∃ t, chainFrom s gs t ∧ g.1 = t ∧ e = t + g.2.1 := by
  induction gs generalizing s with
  | nil =>
    simp only [List.nil_append, chainFrom]
    constructor
    · rintro ⟨h1, h2⟩
      exact ⟨s, rfl, h1, h2.symm⟩
    · rintro ⟨t, ht, h1, h2⟩
      subst ht
      exact ⟨h1, h2.symm⟩
  | cons a gs ih =>
    rw [List.cons_append]
    rw [show chainFrom s (a :: (gs ++ [g])) e =
      (a.1 = s ∧ chainFrom (s + a.2.1) (gs ++ [g]) e) from rfl]
    rw [ih]
    constructor
    · rintro ⟨h1, t, h2, h3, h4⟩
      exact ⟨t, ⟨h1, h2⟩, h3, h4⟩
    · rintro ⟨t, ⟨h1, h2⟩, h3, h4⟩
      exact ⟨h1, t, h2, h3, h4⟩

theorem chainFrom_total (gs : List (ℕ × ℕ × ℕ)) :
    ∀ s e, chainFrom s gs e → s + (gs.map fun g => g.2.1).sum = e := by
  induction gs with
  | nil =>
    intro s e h
    simpa [chainFrom] using h
  | cons a gs ih =>
    intro s e h
    obtain ⟨h1, h2⟩ := h
    have := ih (s + a.2.1) e h2
    simp only [List.map_cons, List.sum_cons]
    omega

theorem chainFrom_start (gs : List (ℕ × ℕ × ℕ)) :
    ∀ s e, chainFrom s gs e → ∀ i, (hi : i < gs.length) →
      (gs.get ⟨i, hi⟩).1 = s + ((gs.take i).map fun g => g.2.1).sum := by
  induction gs with
  | nil =>
    intro s e _ i hi
    exact absurd hi (by simp)
  | cons a gs ih =>
    intro s e h i hi
    obtain ⟨h1, h2⟩ := h
    cases i with
    | zero => simpa using h1
    | succ i =>
      have := ih (s + a.2.1) e h2 i (by simpa using hi)
      simp only [List.get_cons_succ, List.take_succ_cons, List.map_cons,
        List.sum_cons]
      omega

theorem updateGroups_chain (groups : List (ℕ × ℕ × ℕ))
    (current : Option (ℕ × ℕ × ℕ)) (indexStart k mat : ℕ)
    (h : chainFrom 0 (groups ++ current.toList) indexStart) :
    chainFrom 0 ((updateGroups groups current indexStart k mat).1 ++
      (updateGroups groups current indexStart k mat).2.toList)
      (indexStart + k) := by
  match current with
  | none =>
    rw [updateGroups]
    simp only [Option.toList_none, List.append_nil] at h
    simp only [Option.toList_some]
    rw [chainFrom_append_one]
    exact ⟨indexStart, h, rfl, rfl⟩
  | some (s0, c0, m0) =>
    rw [updateGroups]
    split
    · simp only [Option.toList_some] at h ⊢
      rcases (chainFrom_append_one _ _ _ _).mp h with ⟨t, h1, h2, h3⟩
      rw [chainFrom_append_one]
      exact ⟨t, h1, h2, by dsimp only at h3 ⊢; omega⟩
    · simp only [Option.toList_some] at h ⊢
      rw [chainFrom_append_one]
      exact ⟨indexStart, h, rfl, rfl⟩

/- ------------------------------------------------------------------ -/
/- Merge state invariant lemmas. -/
/- ------------------------------------------------------------------ -/

theorem length_flatMap_const {α : Type} (f : ℕ → List α) (n k : ℕ)
    (h : ∀ i, (f i).length = k) :
    ((List.range n).flatMap f).length = n * k := by
  induction n with
  | zero => simp
  | succ n ih =>
    rw [List.range_succ, List.flatMap_append]
    simp only [List.length_append, ih, List.flatMap_cons, List.flatMap_nil,
      List.append_nil, h]
    ring

theorem vertexPos_length (geom : GeometryData) (px py pz ox oy oz : ℤ) (v : ℕ) :
    (vertexPos geom px py pz ox oy oz v).length = 3 := rfl

theorem vertexNormal_length (geom : GeometryData) (v : ℕ) :
    (vertexNormal geom v).length = 3 := by
  rw [vertexNormal]; split <;> rfl

theorem vertexUV_length (geom : GeometryData) (v : ℕ) :
    (vertexUV geom v).length = 2 := by
  rw [vertexUV]; split <;> rfl

theorem stInv_initial : stInv MergeState.initial := by
  refine ⟨rfl, rfl, rfl, ?_⟩
  simp [MergeState.initial, chainFrom]

theorem mergeInstance_inv (palette : Palette) (voxelMap : List ℕ)
    (getIdx : ℤ → ℤ → ℤ → ℕ) (ox oy oz : ℤ) (st : MergeState)
    (inst : ℤ × ℤ × ℤ × GeometryData × ℕ) (h : stInv st) :
    stInv (mergeInstance palette voxelMap getIdx ox oy oz st inst) := by
  rw [mergeInstance]
  split
  · exact h
  · obtain ⟨h1, h2, h3, h4⟩ := h
    refine ⟨?_, ?_, ?_, ?_⟩
    · simp only [List.length_append, h1,
        length_flatMap_const _ _ 3 (fun i => vertexPos_length _ _ _ _ _ _ _ _)]
      ring
    · simp only [List.length_append, h2,
        length_flatMap_const _ _ 3 (fun i => vertexNormal_length _ _)]
      ring
    · simp only [List.length_append, h3,
        length_flatMap_const _ _ 2 (fun i => vertexUV_length _ _)]
      ring
    · simp only [List.length_append, List.length_map]
      exact updateGroups_chain _ _ _ _ _ h4

theorem emitQuad_inv (dir : FaceDir) (mat : ℕ) (ox oy oz : ℤ) (st : MergeState)
    (quad : MergedQuad) (h : stInv st) :
    stInv (emitQuad dir mat ox oy oz st quad) := by
  rw [emitQuad]
  obtain ⟨h1, h2, h3, h4⟩ := h
  refine ⟨?_, ?_, ?_, ?_⟩
  · simp only [List.length_append, h1, List.flatMap_cons, List.flatMap_nil,
      List.length_cons, List.append_nil, List.length_nil]
    ring
  · simp only [List.length_append, h2, List.flatMap_cons, List.flatMap_nil,
      List.length_cons, List.append_nil, List.length_nil]
    ring
  · simp only [List.length_append, h3, List.flatMap_cons, List.flatMap_nil,
      List.length_cons, List.append_nil, List.length_nil]
    ring
  · have := updateGroups_chain st.groups st.currentGroup st.indices.length 6 mat h4
    simpa using this

theorem foldl_stInv {α : Type} (f : MergeState → α → MergeState)
    (hf : ∀ st a, stInv st → stInv (f st a)) :
    ∀ (l : List α) (st : MergeState), stInv st → stInv (l.foldl f st) := by
  intro l
  induction l with
  | nil => intro st h; exact h
  | cons a l ih => intro st h; exact ih (f st a) (hf st a h)

/-- Everything the invariant yields about one produced mesh. -/
theorem meshResult_ok_of_stInv (c : String) (st : MergeState) (h : stInv st) :
    (st.positions.length = 3 * (st.positions.length / 3) ∧
     st.positions.length / 3 = st.vOffset) ∧
    chainFrom 0 (st.groups ++ st.currentGroup.toList) st.indices.length := by
  obtain ⟨h1, _, _, h4⟩ := h
  have hdiv : st.positions.length / 3 = st.vOffset := by omega
  exact ⟨⟨by omega, hdiv⟩, h4⟩

theorem mergeCategoryGeometries_some (palette : Palette) (c : String)
    (blocks : List Block) (voxelMap : List ℕ) (getIdx : ℤ → ℤ → ℤ → ℕ)
    (ox oy oz : ℤ) (m : MeshResult)
    (h : mergeCategoryGeometries palette c blocks voxelMap getIdx ox oy oz = some m) :
    chainFrom 0 m.groups m.indices.length ∧
    m.positions.length % 3 = 0 ∧
    (m.indexWidth = IndexWidth.u16 ↔ m.positions.length / 3 ≤ 65535) ∧
    m.vertexCount = none := by
  rw [mergeCategoryGeometries] at h
  split at h
  · exact absurd h (by simp)
  · have hst := foldl_stInv _ (mergeInstance_inv palette voxelMap getIdx ox oy oz)
      (instancesFor palette blocks c) MergeState.initial stInv_initial
    obtain ⟨h1, _, _, h4⟩ := hst
    cases h
    refine ⟨h4, by simp only; omega, ?_, rfl⟩
    simp only
    constructor
    · intro hw
      split at hw
      · exact absurd hw (by simp)
      · omega
    · intro hle
      split
      · omega
      · rfl

theorem buildChunk_mesh_inv (palette : Palette) (blocks : List Block)
    (ox oy oz : ℤ) (m : MeshResult)
    (h : m ∈ (buildChunk palette blocks ox oy oz).meshes) :
    chainFrom 0 m.groups m.indices.length ∧
    m.positions.length % 3 = 0 ∧
    (m.indexWidth = IndexWidth.u16 ↔ m.positions.length / 3 ≤ 65535) ∧
    m.vertexCount = none := by
  rw [buildChunk] at h
  split at h
  · exact absurd h (by simp [createEmptyResult])
  · simp only at h
    rcases List.mem_filterMap.mp h with ⟨c, _, hc⟩
    exact mergeCategoryGeometries_some _ _ _ _ _ _ _ _ _ hc

theorem createMeshResult_inv (c : String) (st : MergeState) (h : stInv st) :
    chainFrom 0 (createMeshResult c st.positions st.normals st.uvs st.indices
      (st.groups ++ st.currentGroup.toList) st.vOffset).groups
      (createMeshResult c st.positions st.normals st.uvs st.indices
        (st.groups ++ st.currentGroup.toList) st.vOffset).indices.length ∧
    (createMeshResult c st.positions st.normals st.uvs st.indices
      (st.groups ++ st.currentGroup.toList) st.vOffset).positions.length % 3 = 0 ∧
    ((createMeshResult c st.positions st.normals st.uvs st.indices
      (st.groups ++ st.currentGroup.toList) st.vOffset).indexWidth = IndexWidth.u16 ↔
     (createMeshResult c st.positions st.normals st.uvs st.indices
      (st.groups ++ st.currentGroup.toList) st.vOffset).positions.length / 3 ≤ 65535) ∧
    (createMeshResult c st.positions st.normals st.uvs st.indices
      (st.groups ++ st.currentGroup.toList) st.vOffset).vertexCount = none := by
  obtain ⟨h1, _, _, h4⟩ := h
  rw [createMeshResult]
  refine ⟨h4, by simp only; omega, ?_, rfl⟩
  simp only
  constructor
  · intro hw
    split at hw
    · exact absurd hw (by simp)
    · omega
  · intro hle
    split
    · omega
    · rfl

theorem buildChunkGreedy_mesh_inv (palette : Palette) (blocks : List Block)
    (ox oy oz : ℤ) (m : MeshResult)
    (h : m ∈ (buildChunkGreedy palette blocks ox oy oz).meshes) :
    chainFrom 0 m.groups m.indices.length ∧
    m.positions.length % 3 = 0 ∧
    (m.indexWidth = IndexWidth.u16 ↔ m.positions.length / 3 ≤ 65535) ∧
    m.vertexCount = none := by
  rw [buildChunkGreedy] at h
  split at h
  · exact absurd h (by simp [createEmptyResult])
  · simp only at h
    rcases List.mem_append.mp h with h | h
    · have hst : stInv ((collectFaces palette blocks
          (buildVoxelMap blocks (calculateBounds blocks).1 (calculateBounds blocks).2.1
            (calculateBounds blocks).2.2.1
            (((calculateBounds blocks).2.2.2.1 - (calculateBounds blocks).1 + 1).toNat + 2)
            ((((calculateBounds blocks).2.2.2.1 - (calculateBounds blocks).1 + 1).toNat + 2) *
              (((calculateBounds blocks).2.2.2.2.1 - (calculateBounds blocks).2.1 + 1).toNat + 2))
            (((((calculateBounds blocks).2.2.2.1 - (calculateBounds blocks).1 + 1).toNat + 2) *
              (((calculateBounds blocks).2.2.2.2.1 - (calculateBounds blocks).2.1 + 1).toNat + 2)) *
              (((calculateBounds blocks).2.2.2.2.2 - (calculateBounds blocks).2.2.1 + 1).toNat + 2)))
          (gridIndex (calculateBounds blocks).1 (calculateBounds blocks).2.1
            (calculateBounds blocks).2.2.1
            (((calculateBounds blocks).2.2.2.1 - (calculateBounds blocks).1 + 1).toNat + 2)
            ((((calculateBounds blocks).2.2.2.1 - (calculateBounds blocks).1 + 1).toNat + 2) *
              (((calculateBounds blocks).2.2.2.2.1 - (calculateBounds blocks).2.1 + 1).toNat + 2)))).foldl
          (fun st g =>
            if g.2 = [] then st
            else
              (greedyMergeFaces g.1.1 g.2 (calculateBounds blocks).1
                (calculateBounds blocks).2.1 (calculateBounds blocks).2.2.1
                (calculateBounds blocks).2.2.2.1 (calculateBounds blocks).2.2.2.2.1
                (calculateBounds blocks).2.2.2.2.2).foldl
                (emitQuad g.1.1 g.1.2 ox oy oz) st)
          MergeState.initial) := by
        apply foldl_stInv _ _ _ _ stInv_initial
        intro st a hst
        dsimp only
        split
        · exact hst
        · exact foldl_stInv _ (emitQuad_inv _ _ _ _ _) _ _ hst
      split at h
      · rcases List.mem_singleton.mp h with rfl
        exact createMeshResult_inv _ _ hst
      · exact absurd h (by simp)
    · rcases List.mem_filterMap.mp h with ⟨c, _, hc⟩
      exact mergeCategoryGeometries_some _ _ _ _ _ _ _ _ _ hc

/-- Witness for claim C10: an index-less entry overwrites the entry a
previous item of the same update stored at index 0. -/
theorem claim_C10_missing_index_witness :
    (updatePalette
      [some ⟨some 0, some 63, some "custom", none⟩, some emptyRawEntry]).getD 0 none =
      some { occlusionFlags := 0
             geometries := ([] : List RawGeometry).map ingestGeometry
             category := "solid" } :=
  claim_C10_missing_index.2 [some ⟨some 0, some 63, some "custom", none⟩]
    emptyRawEntry rfl

/- ------------------------------------------------------------------ -/
/- Batch accumulator lemmas. -/
/- ------------------------------------------------------------------ -/

theorem finishBatch_mesh (s : BuilderState) (m : MeshResult)
    (h : m ∈ (finishBatch s).1.meshes) :
    ∃ e ∈ s.accumulators, e.2.vertexCount ≠ 0 ∧
      m.positions = e.2.positions ∧
      m.vertexCount = some e.2.vertexCount ∧
      (m.indexWidth = IndexWidth.u16 ↔ e.2.vertexCount ≤ 65535) := by
  rw [finishBatch] at h
  simp only at h
  rcases List.mem_filterMap.mp h with ⟨e, he, heq⟩
  split at heq
  · exact absurd heq (by simp)
  · cases heq
    refine ⟨e, he, by assumption, rfl, rfl, ?_⟩
    simp only
    constructor
    · intro hw
      split at hw
      · exact absurd hw (by simp)
      · omega
    · intro hle
      split
      · omega
      · rfl

theorem mergeMeshIntoBatch_inv (s : BuilderState) (m : MeshResult)
    (hm : m.positions.length % 3 = 0)
    (h : ∀ e ∈ s.accumulators, accEntryInv e) :
    ∀ e ∈ (mergeMeshIntoBatch s m).accumulators, accEntryInv e := by
  intro e he
  rw [mergeMeshIntoBatch] at he
  simp only at he
  split at he
  · rcases List.mem_map.mp he with ⟨e0, he0, heq⟩
    have h0 := h e0 he0
    split at heq
    · cases heq
      obtain ⟨i1, i2⟩ := h0
      refine ⟨?_, ?_⟩ <;> simp only [accEntryInv, List.length_append] at * <;> omega
    · cases heq
      exact h0
  · rcases List.mem_append.mp he with he1 | he1
    · exact h e he1
    · rcases List.mem_singleton.mp he1 with rfl
      refine ⟨?_, ?_⟩ <;>
        simp only [accEntryInv, emptyAccumulator, List.length_append,
          List.length_nil, List.nil_append] <;>
        omega

theorem foldMeshesIntoBatch_inv (l : List MeshResult) :
    ∀ (s : BuilderState), (∀ mm ∈ l, mm.positions.length % 3 = 0) →
    (∀ e ∈ s.accumulators, accEntryInv e) →
    ∀ e ∈ (l.foldl mergeMeshIntoBatch s).accumulators, accEntryInv e := by
  induction l with
  | nil => intro s _ h; exact h
  | cons a l ih =>
    intro s hl h
    simp only [List.foldl_cons]
    exact ih (mergeMeshIntoBatch s a)
      (fun mm hmm => hl mm (List.mem_cons_of_mem a hmm))
      (mergeMeshIntoBatch_inv s a (hl a (List.mem_cons_self a l)) h)

theorem mergeChunkIntoBatch_inv (s : BuilderState) (r : BuildResult)
    (hr : ∀ mm ∈ r.meshes, mm.positions.length % 3 = 0)
    (h : ∀ e ∈ s.accumulators, accEntryInv e) :
    ∀ e ∈ (mergeChunkIntoBatch s r).accumulators, accEntryInv e := by
  rw [mergeChunkIntoBatch]
  exact foldMeshesIntoBatch_inv r.meshes s hr h

theorem batchFold_inv (rs : List BuildResult) :
    ∀ (s0 : BuilderState),
    (∀ r ∈ rs, ∀ mm ∈ r.meshes, mm.positions.length % 3 = 0) →
    (∀ e ∈ s0.accumulators, accEntryInv e) →
    ∀ e ∈ (rs.foldl mergeChunkIntoBatch s0).accumulators, accEntryInv e := by
  induction rs with
  | nil => intro s0 _ base; exact base
  | cons r rs ih =>
    intro s0 hr base
    simp only [List.foldl_cons]
    exact ih (mergeChunkIntoBatch s0 r)
      (fun r2 h2 => hr r2 (List.mem_cons_of_mem r h2))
      (mergeChunkIntoBatch_inv s0 r (hr r (List.mem_cons_self r rs)) base)

/- ------------------------------------------------------------------ -/
/- Claims C6, C7 and C4. -/
/- ------------------------------------------------------------------ -/

/-- Evaluation of the truncation probe chunk: the full build result. -/
theorem truncProbeBuild_eq :
    buildChunk truncProbePalette [⟨0, 0, 0, 0⟩] 0 0 0 =
      ⟨[probeMesh], (0, 0, 0)⟩ := by
  repeat first
  | rfl
  | (fail_if_no_progress
      norm_num [buildChunk, truncProbePalette, truncProbeGeom, probeMesh, calculateBounds,
        buildVoxelMap, gridIndex, categoriesOf, catOf, mergeCategoryGeometries,
        instancesFor, sortedPals, palsFor, blocksFor, List.dedup, List.insertionSort,
        List.orderedInsert, mergeInstance, validIndicesOf, triangleVisible, flushCheck,
        roundAway, neighborFaceIndex, vertexPos, vertexNormal, vertexUV, quantizePos,
        quantizeNormal, i16Sat, i8Sat, ratTrunc, updateGroups, MergeState.initial,
        List.range, List.range.loop, List.foldl, List.flatMap, List.filter,
        List.filterMap, abs_lt, le_abs, Int.toNat_ofNat, List.getElem?_set,
        List.getElem?_replicate, Int.floor_eq_iff])
  | (fail_if_no_progress
      simp [buildChunk, truncProbePalette, truncProbeGeom, probeMesh, calculateBounds,
        buildVoxelMap, gridIndex, categoriesOf, catOf, mergeCategoryGeometries,
        instancesFor, sortedPals, palsFor, blocksFor, List.dedup, List.insertionSort,
        List.orderedInsert, mergeInstance, validIndicesOf, triangleVisible, flushCheck,
        roundAway, neighborFaceIndex, vertexPos, vertexNormal, vertexUV, quantizePos,
        quantizeNormal, i16Sat, i8Sat, ratTrunc, updateGroups, MergeState.initial,
        List.range, List.range.loop, List.foldl, List.flatMap, List.filter,
        List.filterMap, abs_lt, le_abs, List.getElem?_set, List.getElem?_replicate])

/-- Claim C6 (confirmed): for every mesh produced by either merger, the
material groups partition the index buffer exactly: the counts sum to the
index buffer length and each group's start is the sum of the counts of the
groups before it, so the groups are non-overlapping and appear in buffer
order. -/
theorem claim_C6_groups_partition (palette : Palette) (blocks : List Block)
    (ox oy oz : ℤ) (m : MeshResult)
    (h : m ∈ (buildChunk palette blocks ox oy oz).meshes ∨
         m ∈ (buildChunkGreedy palette blocks ox oy oz).meshes) :
    (m.groups.map fun g => g.2.1).sum = m.indices.length ∧
    ∀ i, (hi : i < m.groups.length) →
      (m.groups.get ⟨i, hi⟩).1 = ((m.groups.take i).map fun g => g.2.1).sum := by
  have hchain : chainFrom 0 m.groups m.indices.length := by
    rcases h with h | h
    · exact (buildChunk_mesh_inv palette blocks ox oy oz m h).1
    · exact (buildChunkGreedy_mesh_inv palette blocks ox oy oz m h).1
  constructor
  · have := chainFrom_total m.groups 0 m.indices.length hchain
    omega
  · intro i hi
    have := chainFrom_start m.groups 0 m.indices.length hchain i hi
    omega

/-- Witness for claim C6 on the truncation probe chunk's mesh. -/
theorem claim_C6_groups_partition_witness :
    (probeMesh.groups.map fun g => g.2.1).sum = probeMesh.indices.length ∧
    ∀ i, (hi : i < probeMesh.groups.length) →
      (probeMesh.groups.get ⟨i, hi⟩).1 =
        ((probeMesh.groups.take i).map fun g => g.2.1).sum :=
  claim_C6_groups_partition truncProbePalette [⟨0, 0, 0, 0⟩] 0 0 0 probeMesh
    (Or.inl (by rw [truncProbeBuild_eq]; exact List.mem_singleton.mpr rfl))

/-- Claim C7 (confirmed): every mesh of either chunk builder uses 16-bit
indices exactly when its vertex count (position buffer length / 3) is at
most 65535, and every finish_batch mesh uses 16-bit indices exactly when
its reported vertexCount is at most 65535; the decision is made per output
mesh. -/
theorem claim_C7_index_width :
    (∀ (palette : Palette) (blocks : List Block) (ox oy oz : ℤ) (m : MeshResult),
      (m ∈ (buildChunk palette blocks ox oy oz).meshes ∨
       m ∈ (buildChunkGreedy palette blocks ox oy oz).meshes) →
      (m.indexWidth = IndexWidth.u16 ↔ m.positions.length / 3 ≤ 65535)) ∧
    (∀ (s : BuilderState) (m : MeshResult) (n : ℕ),
      m ∈ (finishBatch s).1.meshes → m.vertexCount = some n →
      (m.indexWidth = IndexWidth.u16 ↔ n ≤ 65535)) := by
  constructor
  · intro palette blocks ox oy oz m h
    rcases h with h | h
    · exact (buildChunk_mesh_inv palette blocks ox oy oz m h).2.2.1
    · exact (buildChunkGreedy_mesh_inv palette blocks ox oy oz m h).2.2.1
  · intro s m n h hn
    rcases finishBatch_mesh s m h with ⟨e, _, _, _, hvc, hw⟩
    rw [hn] at hvc
    cases Option.some_inj.mp hvc
    exact hw

/-- Witness for claim C7: the probe chunk's mesh (1 vertex) uses 16-bit
indices, and the concrete batch state's finish_batch mesh does too. -/
theorem claim_C7_index_width_witness :
    (probeMesh.indexWidth = IndexWidth.u16 ↔ probeMesh.positions.length / 3 ≤ 65535) ∧
    (∀ m ∈ (finishBatch batchProbeState).1.meshes, m.vertexCount = some 1 →
      (m.indexWidth = IndexWidth.u16 ↔ 1 ≤ 65535)) :=
  ⟨claim_C7_index_width.1 truncProbePalette [⟨0, 0, 0, 0⟩] 0 0 0 probeMesh
    (Or.inl (by rw [truncProbeBuild_eq]; exact List.mem_singleton.mpr rfl)),
   fun m hm hn => claim_C7_index_width.2 batchProbeState m 1 hm hn⟩

/-- Claim C4 (counterexample): the meshes returned by build_chunk carry no
vertexCount field (the source sets category/positions/normals/uvs/indices/
groups but never vertexCount, lines 753-762), contradicting the claimed
full section-6 serialization shape. -/
theorem claim_C4_counterexample :
    ((buildChunk truncProbePalette [⟨0, 0, 0, 0⟩] 0 0 0).meshes.map
      fun m => m.vertexCount) = [none] := by
  rw [truncProbeBuild_eq]
  rfl

/-- Claim C4 (amended): meshes returned by buildChunk and buildChunkGreedy
carry category, positions, normals, uvs, indices and groups but no
vertexCount field; meshes returned by finishBatch additionally carry a
vertexCount field equal to the number of vertices in the accumulated
quantized position buffer (for batches folded, per the spec-modelled
accumulation, from chunk results whose position buffers hold whole
vertices). -/
theorem claim_C4_mesh_shape :
    (∀ (palette : Palette) (blocks : List Block) (ox oy oz : ℤ) (m : MeshResult),
      (m ∈ (buildChunk palette blocks ox oy oz).meshes ∨
       m ∈ (buildChunkGreedy palette blocks ox oy oz).meshes) →
      m.vertexCount = none) ∧
    (∀ (rs : List BuildResult) (m : MeshResult),
      (∀ r ∈ rs, ∀ mm ∈ r.meshes, mm.positions.length % 3 = 0) →
      m ∈ (finishBatch (rs.foldl mergeChunkIntoBatch
        (startBatch initialBuilder))).1.meshes →
      m.vertexCount = some (m.positions.length / 3)) := by
  constructor
  · intro palette blocks ox oy oz m h
    rcases h with h | h
    · exact (buildChunk_mesh_inv palette blocks ox oy oz m h).2.2.2
    · exact (buildChunkGreedy_mesh_inv palette blocks ox oy oz m h).2.2.2
  · intro rs m hr h
    rcases finishBatch_mesh _ m h with ⟨e, he, _, hpos, hvc, _⟩
    have hinv := batchFold_inv rs (startBatch initialBuilder) hr
      (by intro e2 he2; exact absurd he2 (by simp [startBatch])) e he
    rw [hvc, hinv.1, hpos]

/-- Witness for claim C4: the probe chunk's mesh has no vertexCount, and a
one-chunk batch of it reports vertexCount 1 = positions.length / 3. -/
theorem claim_C4_mesh_shape_witness :
    probeMesh.vertexCount = none ∧
    (∀ m ∈ (finishBatch ([(⟨[probeMesh], (0, 0, 0)⟩ : BuildResult)].foldl
        mergeChunkIntoBatch (startBatch initialBuilder))).1.meshes,
      m.vertexCount = some (m.positions.length / 3)) :=
  ⟨claim_C4_mesh_shape.1 truncProbePalette [⟨0, 0, 0, 0⟩] 0 0 0 probeMesh
    (Or.inl (by rw [truncProbeBuild_eq]; exact List.mem_singleton.mpr rfl)),
   fun m hm => claim_C4_mesh_shape.2 [⟨[probeMesh], (0, 0, 0)⟩] m
    (by intro r hr mm hmm
        rcases List.mem_singleton.mp hr with rfl
        rcases List.mem_singleton.mp hmm with rfl
        rfl)
    hm⟩

/- ------------------------------------------------------------------ -/
/- Claim C5. -/
/- ------------------------------------------------------------------ -/

/-- Helper lemmas computing the greedy pipeline on a one-voxel chunk. -/
theorem single_bounds (x y z : ℤ) (p : ℕ)
    (hx1 : -2147483648 ≤ x) (hx2 : x ≤ 2147483647)
    (hy1 : -2147483648 ≤ y) (hy2 : y ≤ 2147483647)
    (hz1 : -2147483648 ≤ z) (hz2 : z ≤ 2147483647) :
    calculateBounds [⟨x, y, z, p⟩] = (x, y, z, x, y, z) := by
  show (min 2147483647 x, min 2147483647 y, min 2147483647 z,
    max (-2147483648) x, max (-2147483648) y, max (-2147483648) z) = _
  rw [min_eq_right hx2, min_eq_right hy2, min_eq_right hz2,
    max_eq_right hx1, max_eq_right hy1, max_eq_right hz1]

theorem getD_probe_neighbor (p i : ℕ) (hi : i < 27) (hne : 13 ≠ i) :
    (([0, 0, 0, 0, 0, 0, 0, 0, 0, 0, 0, 0, 0, p + 1, 0, 0, 0, 0, 0, 0, 0, 0, 0, 0, 0, 0,
      0] : List ℕ).getD i 0) = 0 := by
  interval_cases i <;> first | rfl | (exact absurd rfl hne)

theorem single_voxelMap (x y z : ℤ) (p : ℕ) :
    buildVoxelMap [⟨x, y, z, p⟩] x y z 3 9 27 =
      [0, 0, 0, 0, 0, 0, 0, 0, 0, 0, 0, 0, 0, p + 1, 0, 0, 0, 0, 0, 0, 0, 0, 0, 0, 0, 0,
       0] := by
  have h1 : buildVoxelMap [⟨x, y, z, p⟩] x y z 3 9 27 =
      (List.replicate 27 0).set 13 (p + 1) := by
    rw [buildVoxelMap]
    simp only [List.foldl_cons, List.foldl_nil]
    congr 1
    rw [gridIndex]
    omega
  rw [h1]
    
  rfl

theorem single_faceVisible (palette : Palette) (x y z : ℤ) (p : ℕ)
    (dir : FaceDir) :
    faceVisibleGreedy palette
      [0, 0, 0, 0, 0, 0, 0, 0, 0, 0, 0, 0, 0, p + 1, 0, 0, 0, 0, 0, 0, 0, 0, 0, 0, 0, 0,
       0] (gridIndex x y z 3 9) x y z dir = true := by
  cases dir
  case posX =>
    rw [faceVisibleGreedy]
    dsimp only [FaceDir.delta]
    rw [show gridIndex x y z 3 9 (x + 1) (y + 0) (z + 0) = 14 by rw [gridIndex]; omega]
    rw [getD_probe_neighbor p 14 (by norm_num) (by norm_num)]
    norm_num
  case negX =>
    rw [faceVisibleGreedy]
    dsimp only [FaceDir.delta]
    rw [show gridIndex x y z 3 9 (x + -1) (y + 0) (z + 0) = 12 by rw [gridIndex]; omega]
    rw [getD_probe_neighbor p 12 (by norm_num) (by norm_num)]
    norm_num
  case posY =>
    rw [faceVisibleGreedy]
    dsimp only [FaceDir.delta]
    rw [show gridIndex x y z 3 9 (x + 0) (y + 1) (z + 0) = 16 by rw [gridIndex]; omega]
    rw [getD_probe_neighbor p 16 (by norm_num) (by norm_num)]
    norm_num
  case negY =>
    rw [faceVisibleGreedy]
    dsimp only [FaceDir.delta]
    rw [show gridIndex x y z 3 9 (x + 0) (y + -1) (z + 0) = 10 by rw [gridIndex]; omega]
    rw [getD_probe_neighbor p 10 (by norm_num) (by norm_num)]
    norm_num
  case posZ =>
    rw [faceVisibleGreedy]
    dsimp only [FaceDir.delta]
    rw [show gridIndex x y z 3 9 (x + 0) (y + 0) (z + 1) = 22 by rw [gridIndex]; omega]
    rw [getD_probe_neighbor p 22 (by norm_num) (by norm_num)]
    norm_num
  case negZ =>
    rw [faceVisibleGreedy]
    dsimp only [FaceDir.delta]
    rw [show gridIndex x y z 3 9 (x + 0) (y + 0) (z + -1) = 4 by rw [gridIndex]; omega]
    rw [getD_probe_neighbor p 4 (by norm_num) (by norm_num)]
    norm_num

theorem single_collectFaces (palette : Palette) (x y z : ℤ) (p : ℕ)
    (e : PaletteEntryData) (mat : ℕ)
    (hp : palette.getD p none = some e) (hcat : e.category = "solid")
    (hmat : ((e.geometries.head?.map fun g => g.materialIndex)).getD 0 = mat) :
    collectFaces palette [⟨x, y, z, p⟩]
      [0, 0, 0, 0, 0, 0, 0, 0, 0, 0, 0, 0, 0, p + 1, 0, 0, 0, 0, 0, 0, 0, 0, 0, 0, 0, 0,
       0] (gridIndex x y z 3 9) =
      [((FaceDir.posX, mat), [⟨x, y, z, mat, (0, 0), (1, 1)⟩]),
       ((FaceDir.negX, mat), [⟨x, y, z, mat, (0, 0), (1, 1)⟩]),
       ((FaceDir.posY, mat), [⟨x, y, z, mat, (0, 0), (1, 1)⟩]),
       ((FaceDir.negY, mat), [⟨x, y, z, mat, (0, 0), (1, 1)⟩]),
       ((FaceDir.posZ, mat), [⟨x, y, z, mat, (0, 0), (1, 1)⟩]),
       ((FaceDir.negZ, mat), [⟨x, y, z, mat, (0, 0), (1, 1)⟩])] := by
  rw [collectFaces]
  simp only [List.foldl_cons, List.foldl_nil]
  rw [hp]
  repeat first
  | rfl
  | (fail_if_no_progress
      simp [hcat, hmat, directions, single_faceVisible, assocPush, Prod.mk.injEq])
  | (fail_if_no_progress
      norm_num [hcat, hmat, directions, single_faceVisible, assocPush, Prod.mk.injEq])

theorem single_quads (dir : FaceDir) (x y z : ℤ) (mat : ℕ) :
    greedyMergeFaces dir [⟨x, y, z, mat, (0, 0), (1, 1)⟩] x y z x y z =
      [⟨x, y, z, 1, 1⟩] := by
  cases dir <;>
    (rw [greedyMergeFaces]
     norm_num [layersOf, assocPush, scanLayer, scanRow, expandWidth, expandHeight,
       clearRect, quadCoords, Int.sub_self, List.range, List.range.loop])

theorem single_nonsolid (palette : Palette) (x y z : ℤ) (p : ℕ)
    (e : PaletteEntryData) (vm : List ℕ) (gi : ℤ → ℤ → ℤ → ℕ) (ox oy oz : ℤ)
    (hp : palette.getD p none = some e) (hcat : e.category = "solid") :
    buildNonSolidBlocks palette [⟨x, y, z, p⟩] vm gi ox oy oz = [] := by
  rw [buildNonSolidBlocks]
  suffices h : categoriesOfNonSolid palette [⟨x, y, z, p⟩] = [] by rw [h]; rfl
  rw [categoriesOfNonSolid]
  have hp2 : palette[p]?.getD none = some e := by
    rw [← List.getD_eq_getElem?_getD]
    exact hp
  simp [catOf, hp2, hcat]

theorem claim_C5_single_solid_voxel (palette : Palette) (x y z : ℤ) (p : ℕ)
    (e : PaletteEntryData) (ox oy oz : ℤ)
    (hx1 : -2147483648 ≤ x) (hx2 : x ≤ 2147483647)
    (hy1 : -2147483648 ≤ y) (hy2 : y ≤ 2147483647)
    (hz1 : -2147483648 ≤ z) (hz2 : z ≤ 2147483647)
    (hp : palette.getD p none = some e)
    (hcat : e.category = "solid") :
    ((buildChunkGreedy palette [⟨x, y, z, p⟩] ox oy oz).meshes.map
      fun m => (m.category, m.positions.length, m.indices.length)) =
      [("solid", 72, 36)] := by
  rw [buildChunkGreedy]
  rw [if_neg (by simp)]
  rw [single_bounds x y z p hx1 hx2 hy1 hy2 hz1 hz2]
  dsimp only
  simp only [Int.sub_self, zero_add, Int.toNat_one]
  norm_num
  rw [single_voxelMap]
  rw [single_collectFaces palette x y z p e _ hp hcat rfl]
  rw [single_nonsolid palette x y z p e _ _ ox oy oz hp hcat]
  simp only [List.foldl_cons, List.foldl_nil, single_quads]
  repeat first
  | rfl
  | (fail_if_no_progress
      norm_num [emitQuad, createMeshResult, MergeState.initial, quadVertices,
        updateGroups, List.flatMap_cons, List.flatMap_nil])
  | (fail_if_no_progress
      simp [emitQuad, createMeshResult, MergeState.initial, quadVertices,
        updateGroups, List.flatMap_cons, List.flatMap_nil])

/-- Witness for claim C5 at the solid probe palette and the origin voxel. -/
theorem claim_C5_single_solid_voxel_witness :
    ((buildChunkGreedy cullProbePalette [⟨0, 0, 0, 0⟩] 0 0 0).meshes.map
      fun m => (m.category, m.positions.length, m.indices.length)) =
      [("solid", 72, 36)] :=
  claim_C5_single_solid_voxel cullProbePalette 0 0 0 0
    ⟨63, [], "solid"⟩ 0 0 0 (by norm_num) (by norm_num) (by norm_num)
    (by norm_num) (by norm_num) (by norm_num) rfl rfl

theorem sum_flatMap_nat {α : Type} (l : List α) (f : α → List ℕ) :
    (l.flatMap f).sum = (l.map fun a => (f a).sum).sum := by
  induction l with
  | nil => rfl
  | cons a l ih => simp [List.flatMap_cons, List.sum_append, ih]

theorem sum_filter_split {α : Type} (l : List α) (q : α → Bool) (g : α → ℕ) :
    ((l.filter q).map g).sum + ((l.filter fun a => !q a).map g).sum =
      (l.map g).sum := by
  induction l with
  | nil => rfl
  | cons a l ih =>
    cases hq : q a <;>
      simp only [List.filter_cons, hq, Bool.not_true, Bool.not_false,
        if_true, if_false, List.map_cons, List.sum_cons, Bool.false_eq_true,
        Bool.true_eq_false, reduceIte] <;>
      omega

theorem sum_over_keys {α : Type} (key : α → ℕ) (g : α → ℕ) :
    ∀ (ps : List ℕ), ps.Nodup → ∀ (l : List α), (∀ b ∈ l, key b ∈ ps) →
      ((ps.map fun p => ((l.filter fun b => decide (key b = p)).map g).sum).sum) =
        (l.map g).sum := by
  intro ps
  induction ps with
  | nil =>
    intro _ l hcov
    cases l with
    | nil => rfl
    | cons b l => exact absurd (hcov b (List.mem_cons_self b l)) (by simp)
  | cons p ps ih =>
    intro hnd l hcov
    rw [List.nodup_cons] at hnd
    have hsplit := sum_filter_split l (fun b => decide (key b = p)) g
    have heq : ∀ p2 ∈ ps, (l.filter fun b => decide (key b = p2)) =
        ((l.filter fun b => !decide (key b = p)).filter
          fun b => decide (key b = p2)) := by
      intro p2 hp2
      rw [List.filter_filter]
      apply List.filter_congr
      intro b _
      have hne2 : ¬ p2 = p := by
        intro hc
        exact hnd.1 (hc ▸ hp2)
      by_cases hk : key b = p2
      · simp [hk, hne2]
      · simp [hk]
    have hcov2 : ∀ b ∈ l.filter fun b => !decide (key b = p), key b ∈ ps := by
      intro b hb
      rw [List.mem_filter] at hb
      rcases List.mem_cons.mp (hcov b hb.1) with hm | hm
      · exfalso
        have := hb.2
        simp [hm] at this
      · exact hm
    have hih := ih hnd.2 (l.filter fun b => !decide (key b = p)) hcov2
    simp only [List.map_cons, List.sum_cons]
    have hmapeq : (ps.map fun p2 =>
        ((l.filter fun b => decide (key b = p2)).map g).sum) =
        (ps.map fun p2 =>
          (((l.filter fun b => !decide (key b = p)).filter
            fun b => decide (key b = p2)).map g).sum) :=
      List.map_congr_left (fun p2 hp2 => by rw [heq p2 hp2])
    rw [hmapeq, hih]
    omega

theorem blocksFor_eq_filter (palette : Palette) (blocks : List Block)
    (c : String) (p : ℕ) :
    blocksFor palette blocks c p =
      (catBlocks palette blocks c).filter fun b => decide (b.pal = p) := by
  rw [blocksFor, catBlocks, List.filter_filter]

theorem mem_palsFor_entry (palette : Palette) (blocks : List Block)
    (c : String) (p : ℕ) (hp : p ∈ palsFor palette blocks c) :
    ∃ e, palette.getD p none = some e ∧ e.category = c := by
  rw [palsFor, List.mem_dedup] at hp
  rcases List.mem_map.mp hp with ⟨b, hb, hbp⟩
  rw [List.mem_filter] at hb
  have hcat := of_decide_eq_true hb.2
  rw [catOf] at hcat
  subst hbp
  rcases hgd : palette.getD b.pal none with _ | e
  · rw [hgd] at hcat
    exact absurd hcat (by simp)
  · rw [hgd] at hcat
    refine ⟨e, rfl, ?_⟩
    simpa using hcat

theorem instances_sum (w : GeometryData → ℕ) (palette : Palette)
    (blocks : List Block) (c : String) :
    ((instancesFor palette blocks c).map
      fun i : ℤ × ℤ × ℤ × GeometryData × ℕ => w i.2.2.2.1).sum =
      catW w palette blocks c := by
  rw [instancesFor, List.map_flatMap, sum_flatMap_nat]
  have hper : ∀ p ∈ sortedPals palette blocks c,
      (((match palette.getD p none with
        | some e => (blocksFor palette blocks c p).flatMap fun b =>
            e.geometries.map fun g => (b.x, b.y, b.z, g, e.occlusionFlags)
        | none => ([] : List (ℤ × ℤ × ℤ × GeometryData × ℕ))).map
          fun i : ℤ × ℤ × ℤ × GeometryData × ℕ => w i.2.2.2.1).sum) =
      ((blocksFor palette blocks c p).map (blockW w palette)).sum := by
    intro p hp
    have hp2 : p ∈ palsFor palette blocks c := by
      rw [sortedPals] at hp
      exact (List.perm_insertionSort (· ≤ ·) (palsFor palette blocks c)).mem_iff.mp hp
    rcases mem_palsFor_entry palette blocks c p hp2 with ⟨e, hgd, _⟩
    rw [hgd]
    rw [List.map_flatMap, sum_flatMap_nat]
    apply congrArg
    apply List.map_congr_left
    intro b hb
    rw [List.map_map]
    have hpal : b.pal = p := by
      rw [blocksFor, List.mem_filter] at hb
      have := hb.2
      rw [Bool.and_eq_true] at this
      exact of_decide_eq_true this.1
    rw [blockW, hpal, hgd]
    rfl
  rw [List.map_congr_left hper]
  have hperm : List.Perm
      ((sortedPals palette blocks c).map
        (fun p => ((blocksFor palette blocks c p).map (blockW w palette)).sum))
      ((palsFor palette blocks c).map
        (fun p => ((blocksFor palette blocks c p).map (blockW w palette)).sum)) :=
    (List.perm_insertionSort (· ≤ ·) (palsFor palette blocks c)).map _
  rw [hperm.sum_eq, catW]
  have hforms : (palsFor palette blocks c).map
      (fun p => ((blocksFor palette blocks c p).map (blockW w palette)).sum) =
      (palsFor palette blocks c).map
      (fun p => (((catBlocks palette blocks c).filter
        fun b => decide (b.pal = p)).map (blockW w palette)).sum) :=
    List.map_congr_left (fun p _ => by rw [blocksFor_eq_filter])
  rw [hforms]
  apply sum_over_keys Block.pal (blockW w palette) (palsFor palette blocks c)
    (by rw [palsFor]; exact List.nodup_dedup _)
  intro b hb
  rw [palsFor, List.mem_dedup]
  exact List.mem_map.mpr ⟨b, by rwa [catBlocks] at hb, rfl⟩

/-- With no occluding bits anywhere in the palette, the geometry-driven test
never culls. -/
theorem triangleVisible_noOcc (palette : Palette) (voxelMap : List ℕ)
    (getIdx : ℤ → ℤ → ℤ → ℕ) (geom : GeometryData) (px py pz : ℤ) (j : ℕ)
    (hno : ∀ oe ∈ palette, ∀ e, oe = some e → e.occlusionFlags = 0) :
    triangleVisible palette voxelMap getIdx geom px py pz j = true := by
  rw [triangleVisible]
  split
  case isFalse => rfl
  case isTrue =>
    dsimp only
    split
    case isFalse => rfl
    case isTrue =>
      split
      case isFalse => rfl
      case isTrue =>
        split
        case isFalse => rfl
        case isTrue =>
          split
          case h_2 => rfl
          case h_1 ne heq =>
            split
            case isFalse => rfl
            case isTrue =>
              split
              case isFalse => rfl
              case isTrue hflag =>
                exfalso
                have hmem : some ne ∈ palette := by
                  rw [List.getD_eq_getElem?_getD] at heq
                  rcases hoe : palette[(List.getD voxelMap
                    (getIdx (px + roundAway (geom.normals.getD
                      (geom.indices.getD j 0 * 3) 0))
                      (py + roundAway (geom.normals.getD
                        (geom.indices.getD j 0 * 3 + 1) 0))
                      (pz + roundAway (geom.normals.getD
                        (geom.indices.getD j 0 * 3 + 2) 0))) 0) - 1]? with
                    _ | oe
                  · rw [hoe] at heq
                    exact absurd heq (by simp)
                  · rw [hoe] at heq
                    simp only [Option.getD_some] at heq
                    subst heq
                    exact List.getElem?_mem hoe
                have := hno (some ne) hmem ne rfl
                rw [this] at hflag
                simp at hflag

theorem validIndicesOf_noOcc (palette : Palette) (voxelMap : List ℕ)
    (getIdx : ℤ → ℤ → ℤ → ℕ) (geom : GeometryData) (px py pz : ℤ)
    (hno : ∀ oe ∈ palette, ∀ e, oe = some e → e.occlusionFlags = 0) :
    (validIndicesOf palette voxelMap getIdx geom px py pz).length =
      (geom.indices.length / 3) * 3 := by
  rw [validIndicesOf]
  apply length_flatMap_const
  intro t
  rw [triangleVisible_noOcc palette voxelMap getIdx geom px py pz (3 * t) hno]
  rfl

theorem validIndicesOf_noOcc_empty (palette : Palette) (voxelMap : List ℕ)
    (getIdx : ℤ → ℤ → ℤ → ℕ) (geom : GeometryData) (px py pz : ℤ)
    (hno : ∀ oe ∈ palette, ∀ e, oe = some e → e.occlusionFlags = 0) :
    validIndicesOf palette voxelMap getIdx geom px py pz = [] ↔
      3 * (geom.indices.length / 3) = 0 := by
  rw [← List.length_eq_zero, validIndicesOf_noOcc _ _ _ _ _ _ _ hno]
  omega

theorem mergeInstance_counts (palette : Palette) (voxelMap : List ℕ)
    (getIdx : ℤ → ℤ → ℤ → ℕ) (ox oy oz : ℤ) (st : MergeState)
    (inst : ℤ × ℤ × ℤ × GeometryData × ℕ)
    (hno : ∀ oe ∈ palette, ∀ e, oe = some e → e.occlusionFlags = 0) :
    (mergeInstance palette voxelMap getIdx ox oy oz st inst).positions.length =
      st.positions.length + 3 * geomSurvVerts inst.2.2.2.1 ∧
    (mergeInstance palette voxelMap getIdx ox oy oz st inst).indices.length =
      st.indices.length + geomSurvIdx inst.2.2.2.1 ∧
    (mergeInstance palette voxelMap getIdx ox oy oz st inst).vOffset =
      st.vOffset + geomSurvVerts inst.2.2.2.1 := by
  rw [mergeInstance]
  split
  next hv =>
    rw [validIndicesOf_noOcc_empty _ _ _ _ _ _ _ hno] at hv
    rw [geomSurvVerts, geomSurvIdx, if_pos hv, if_pos hv]
    omega
  next hv =>
    rw [validIndicesOf_noOcc_empty _ _ _ _ _ _ _ hno] at hv
    rw [geomSurvVerts, geomSurvIdx, if_neg hv, if_neg hv]
    refine ⟨?_, ?_, rfl⟩
    · simp only [List.length_append,
        length_flatMap_const _ _ 3 (fun i => vertexPos_length _ _ _ _ _ _ _ _)]
      ring
    · simp only [List.length_append, List.length_map,
        validIndicesOf_noOcc _ _ _ _ _ _ _ hno]
      omega

theorem foldInstances_counts (palette : Palette) (voxelMap : List ℕ)
    (getIdx : ℤ → ℤ → ℤ → ℕ) (ox oy oz : ℤ)
    (hno : ∀ oe ∈ palette, ∀ e, oe = some e → e.occlusionFlags = 0) :
    ∀ (insts : List (ℤ × ℤ × ℤ × GeometryData × ℕ)) (st : MergeState),
      (insts.foldl (mergeInstance palette voxelMap getIdx ox oy oz) st).positions.length =
        st.positions.length + 3 * (insts.map
          fun i : ℤ × ℤ × ℤ × GeometryData × ℕ => geomSurvVerts i.2.2.2.1).sum ∧
      (insts.foldl (mergeInstance palette voxelMap getIdx ox oy oz) st).indices.length =
        st.indices.length + (insts.map
          fun i : ℤ × ℤ × ℤ × GeometryData × ℕ => geomSurvIdx i.2.2.2.1).sum ∧
      (insts.foldl (mergeInstance palette voxelMap getIdx ox oy oz) st).vOffset =
        st.vOffset + (insts.map
          fun i : ℤ × ℤ × ℤ × GeometryData × ℕ => geomSurvVerts i.2.2.2.1).sum := by
  intro insts
  induction insts with
  | nil => intro st; simp
  | cons a l ih =>
    intro st
    simp only [List.foldl_cons, List.map_cons, List.sum_cons]
    rcases ih (mergeInstance palette voxelMap getIdx ox oy oz st a) with ⟨i1, i2, i3⟩
    rcases mergeInstance_counts palette voxelMap getIdx ox oy oz st a hno with ⟨m1, m2, m3⟩
    refine ⟨?_, ?_, ?_⟩
    · rw [i1, m1]; ring
    · rw [i2, m2]; ring
    · rw [i3, m3]; ring

theorem mergeCategory_run (palette : Palette) (c : String) (blocks : List Block)
    (voxelMap : List ℕ) (getIdx : ℤ → ℤ → ℤ → ℕ) (ox oy oz : ℤ)
    (hno : ∀ oe ∈ palette, ∀ e, oe = some e → e.occlusionFlags = 0) :
    match mergeCategoryGeometries palette c blocks voxelMap getIdx ox oy oz with
    | none => catW geomAllVerts palette blocks c = 0
    | some m => m.category = c ∧
        m.positions.length = 3 * catW geomSurvVerts palette blocks c ∧
        m.indices.length = catW geomSurvIdx palette blocks c := by
  rcases hmc : mergeCategoryGeometries palette c blocks voxelMap getIdx ox oy oz
    with _ | m
  · rw [mergeCategoryGeometries] at hmc
    split at hmc
    case isTrue h0 =>
      rw [← instances_sum geomAllVerts palette blocks c]
      exact h0
    case isFalse h0 => exact absurd hmc (by simp)
  · rw [mergeCategoryGeometries] at hmc
    split at hmc
    case isTrue h0 => exact absurd hmc (by simp)
    case isFalse h0 =>
      cases hmc
      rcases foldInstances_counts palette voxelMap getIdx ox oy oz hno
        (instancesFor palette blocks c) MergeState.initial with ⟨c1, c2, _⟩
      refine ⟨rfl, ?_, ?_⟩
      · rw [show (MergeState.initial.positions).length = 0 from rfl] at c1
        rw [c1, instances_sum geomSurvVerts palette blocks c]
        omega
      · rw [show (MergeState.initial.indices).length = 0 from rfl] at c2
        rw [c2, instances_sum geomSurvIdx palette blocks c]
        omega

theorem catW_zero_pointwise (w1 w2 : GeometryData → ℕ) (palette : Palette)
    (blocks : List Block) (c : String)
    (h : ∀ b ∈ catBlocks palette blocks c, ∀ e,
      palette.getD b.pal none = some e → ∀ g ∈ e.geometries, w1 g = 0 → w2 g = 0)
    (h1 : catW w1 palette blocks c = 0) : catW w2 palette blocks c = 0 := by
  rw [catW, List.sum_eq_zero_iff] at h1 ⊢
  intro n hn
  rcases List.mem_map.mp hn with ⟨b, hb, hbn⟩
  subst hbn
  have hb1 := h1 (blockW w1 palette b) (List.mem_map.mpr ⟨b, hb, rfl⟩)
  rw [blockW] at hb1 ⊢
  rcases hgd : palette.getD b.pal none with _ | e
  · rfl
  · rw [hgd] at hb1
    rw [List.sum_eq_zero_iff] at hb1 ⊢
    intro n2 hn2
    rcases List.mem_map.mp hn2 with ⟨g, hg, hgn⟩
    subst hgn
    exact h b hb e hgd g hg (hb1 (w1 g) (List.mem_map.mpr ⟨g, hg, rfl⟩))

theorem catSurvVerts_zero_of_allVerts_zero (palette : Palette)
    (blocks : List Block) (c : String)
    (h : catW geomAllVerts palette blocks c = 0) :
    catW geomSurvVerts palette blocks c = 0 := by
  apply catW_zero_pointwise geomAllVerts geomSurvVerts palette blocks c _ h
  intro b _ e _ g _ hg
  rw [geomAllVerts] at hg
  rw [geomSurvVerts, hg]
  split <;> rfl

theorem catSurvIdx_zero_of_survVerts_zero (palette : Palette)
    (blocks : List Block) (c : String)
    (hgeom : ∀ oe ∈ palette, ∀ e, oe = some e → ∀ g ∈ e.geometries,
      3 ≤ g.indices.length → 3 ≤ g.positions.length)
    (h : catW geomSurvVerts palette blocks c = 0) :
    catW geomSurvIdx palette blocks c = 0 := by
  apply catW_zero_pointwise geomSurvVerts geomSurvIdx palette blocks c _ h
  intro b _ e hgd g hg hsv
  have hmem : some e ∈ palette := by
    rw [List.getD_eq_getElem?_getD] at hgd
    rcases hoe : palette[b.pal]? with _ | oe
    · rw [hoe] at hgd
      exact absurd hgd (by simp)
    · rw [hoe] at hgd
      simp only [Option.getD_some] at hgd
      subst hgd
      exact List.getElem?_mem hoe
  have hge := hgeom (some e) hmem e rfl g hg
  rw [geomSurvVerts] at hsv
  rw [geomSurvIdx]
  split
  · rfl
  · exfalso
    rename_i hc
    rw [if_neg hc] at hsv
    have hil : 3 ≤ g.indices.length := by omega
    have := hge hil
    omega

theorem catW_append (w : GeometryData → ℕ) (palette : Palette)
    (b1 b2 : List Block) (c : String) :
    catW w palette (b1 ++ b2) c = catW w palette b1 c + catW w palette b2 c := by
  rw [catW, catW, catW, catBlocks, catBlocks, catBlocks, List.filter_append,
    List.map_append, List.sum_append]

theorem categoriesOf_const (palette : Palette) (blocks : List Block) (c : String)
    (hcat : ∀ b ∈ blocks, catOf palette b.pal = some c) (hne : blocks ≠ []) :
    categoriesOf palette blocks = [c] := by
  rw [categoriesOf]
  have hfm : ∀ (bs : List Block), (∀ b ∈ bs, catOf palette b.pal = some c) →
      bs.filterMap (fun b => catOf palette b.pal) =
        List.replicate bs.length c := by
    intro bs
    induction bs with
    | nil => intro _; rfl
    | cons b l ih =>
      intro hc2
      rw [List.filterMap_cons, hc2 b (List.mem_cons_self b l)]
      rw [List.length_cons, List.replicate_succ]
      rw [ih (fun b2 h2 => hc2 b2 (List.mem_cons_of_mem b h2))]
  rw [hfm blocks hcat]
  exact List.replicate_dedup (by simpa using hne)

theorem toList_totals (palette : Palette) (blocks : List Block) (c : String)
    (voxelMap : List ℕ) (getIdx : ℤ → ℤ → ℤ → ℕ) (ox oy oz : ℤ)
    (hno : ∀ oe ∈ palette, ∀ e, oe = some e → e.occlusionFlags = 0)
    (hgeom : ∀ oe ∈ palette, ∀ e, oe = some e → ∀ g ∈ e.geometries,
      3 ≤ g.indices.length → 3 ≤ g.positions.length) :
    ((((mergeCategoryGeometries palette c blocks voxelMap getIdx ox oy oz).toList.filter
      fun m => decide (m.category = c)).map fun m => m.positions.length / 3).sum =
      catW geomSurvVerts palette blocks c) ∧
    ((((mergeCategoryGeometries palette c blocks voxelMap getIdx ox oy oz).toList.filter
      fun m => decide (m.category = c)).map fun m => m.indices.length).sum =
      catW geomSurvIdx palette blocks c) := by
  have hrun := mergeCategory_run palette c blocks voxelMap getIdx ox oy oz hno
  rcases hm : mergeCategoryGeometries palette c blocks voxelMap getIdx ox oy oz
    with _ | m
  · rw [hm] at hrun
    have hsv := catSurvVerts_zero_of_allVerts_zero palette blocks c hrun
    have hsi := catSurvIdx_zero_of_survVerts_zero palette blocks c hgeom hsv
    simp [hsv, hsi]
  · rw [hm] at hrun
    rcases hrun with ⟨hc, hpos, hidx⟩
    refine ⟨?_, ?_⟩ <;> simp [hc, hpos, hidx] <;> omega

theorem filterMap_single {α β : Type} (f : α → Option β) (a : α) :
    [a].filterMap f = (f a).toList := by
  rcases h : f a with _ | b <;> simp [List.filterMap_cons, h]

theorem buildChunk_totals (palette : Palette) (blocks : List Block) (c : String)
    (ox oy oz : ℤ)
    (hno : ∀ oe ∈ palette, ∀ e, oe = some e → e.occlusionFlags = 0)
    (hgeom : ∀ oe ∈ palette, ∀ e, oe = some e → ∀ g ∈ e.geometries,
      3 ≤ g.indices.length → 3 ≤ g.positions.length)
    (hcat : ∀ b ∈ blocks, catOf palette b.pal = some c) :
    categoryVertexTotal (buildChunk palette blocks ox oy oz) c =
      catW geomSurvVerts palette blocks c ∧
    categoryIndexTotal (buildChunk palette blocks ox oy oz) c =
      catW geomSurvIdx palette blocks c := by
  by_cases hne : blocks = []
  · subst hne
    constructor <;>
      simp [buildChunk, createEmptyResult, categoryVertexTotal,
        categoryIndexTotal, catW, catBlocks]
  · rw [categoryVertexTotal, categoryIndexTotal, buildChunk,
      if_neg (by simpa using hne)]
    dsimp only
    rw [categoriesOf_const palette blocks c hcat hne, filterMap_single]
    exact toList_totals palette blocks c _ _ ox oy oz hno hgeom

theorem buildChunk_cases (palette : Palette) (blocks : List Block) (c : String)
    (ox oy oz : ℤ)
    (hno : ∀ oe ∈ palette, ∀ e, oe = some e → e.occlusionFlags = 0)
    (hgeom : ∀ oe ∈ palette, ∀ e, oe = some e → ∀ g ∈ e.geometries,
      3 ≤ g.indices.length → 3 ≤ g.positions.length)
    (hcat : ∀ b ∈ blocks, catOf palette b.pal = some c) :
    ((buildChunk palette blocks ox oy oz).meshes = [] ∧
      catW geomSurvVerts palette blocks c = 0 ∧
      catW geomSurvIdx palette blocks c = 0) ∨
    (∃ m, (buildChunk palette blocks ox oy oz).meshes = [m] ∧ m.category = c ∧
      m.positions.length = 3 * catW geomSurvVerts palette blocks c ∧
      m.indices.length = catW geomSurvIdx palette blocks c) := by
  by_cases hne : blocks = []
  · subst hne
    left
    refine ⟨by simp [buildChunk, createEmptyResult], ?_, ?_⟩ <;>
      simp [catW, catBlocks]
  · have hmeq : (buildChunk palette blocks ox oy oz).meshes =
        (mergeCategoryGeometries palette c blocks
          (buildVoxelMap blocks (calculateBounds blocks).1 (calculateBounds blocks).2.1
            (calculateBounds blocks).2.2.1
            (((calculateBounds blocks).2.2.2.1 - (calculateBounds blocks).1 + 1).toNat + 2)
            ((((calculateBounds blocks).2.2.2.1 - (calculateBounds blocks).1 + 1).toNat + 2) *
              (((calculateBounds blocks).2.2.2.2.1 - (calculateBounds blocks).2.1 + 1).toNat + 2))
            (((((calculateBounds blocks).2.2.2.1 - (calculateBounds blocks).1 + 1).toNat + 2) *
              (((calculateBounds blocks).2.2.2.2.1 - (calculateBounds blocks).2.1 + 1).toNat + 2)) *
              (((calculateBounds blocks).2.2.2.2.2 - (calculateBounds blocks).2.2.1 + 1).toNat + 2)))
          (gridIndex (calculateBounds blocks).1 (calculateBounds blocks).2.1
            (calculateBounds blocks).2.2.1
            (((calculateBounds blocks).2.2.2.1 - (calculateBounds blocks).1 + 1).toNat + 2)
            ((((calculateBounds blocks).2.2.2.1 - (calculateBounds blocks).1 + 1).toNat + 2) *
              (((calculateBounds blocks).2.2.2.2.1 - (calculateBounds blocks).2.1 + 1).toNat + 2)))
          ox oy oz).toList := by
      rw [buildChunk, if_neg (by simpa using hne)]
      dsimp only
      rw [categoriesOf_const palette blocks c hcat hne, filterMap_single]
    have hrun := mergeCategory_run palette c blocks
      (buildVoxelMap blocks (calculateBounds blocks).1 (calculateBounds blocks).2.1
        (calculateBounds blocks).2.2.1
        (((calculateBounds blocks).2.2.2.1 - (calculateBounds blocks).1 + 1).toNat + 2)
        ((((calculateBounds blocks).2.2.2.1 - (calculateBounds blocks).1 + 1).toNat + 2) *
          (((calculateBounds blocks).2.2.2.2.1 - (calculateBounds blocks).2.1 + 1).toNat + 2))
        (((((calculateBounds blocks).2.2.2.1 - (calculateBounds blocks).1 + 1).toNat + 2) *
          (((calculateBounds blocks).2.2.2.2.1 - (calculateBounds blocks).2.1 + 1).toNat + 2)) *
          (((calculateBounds blocks).2.2.2.2.2 - (calculateBounds blocks).2.2.1 + 1).toNat + 2)))
      (gridIndex (calculateBounds blocks).1 (calculateBounds blocks).2.1
        (calculateBounds blocks).2.2.1
        (((calculateBounds blocks).2.2.2.1 - (calculateBounds blocks).1 + 1).toNat + 2)
        ((((calculateBounds blocks).2.2.2.1 - (calculateBounds blocks).1 + 1).toNat + 2) *
          (((calculateBounds blocks).2.2.2.2.1 - (calculateBounds blocks).2.1 + 1).toNat + 2)))
      ox oy oz hno
    rcases hm : mergeCategoryGeometries palette c blocks _ _ ox oy oz with _ | m
    · rw [hm] at hrun hmeq
      have hsv := catSurvVerts_zero_of_allVerts_zero palette blocks c hrun
      have hsi := catSurvIdx_zero_of_survVerts_zero palette blocks c hgeom hsv
      left
      exact ⟨by simpa using hmeq, hsv, hsi⟩
    · rw [hm] at hrun hmeq
      rcases hrun with ⟨hc, hpos, hidx⟩
      right
      exact ⟨m, by simpa using hmeq, hc, hpos, hidx⟩

theorem mergeChunk_accState (s : BuilderState) (r : BuildResult) (c : String)
    (vc ic cv ci : ℕ)
    (hr : (r.meshes = [] ∧ cv = 0 ∧ ci = 0) ∨
      (∃ m, r.meshes = [m] ∧ m.category = c ∧ m.positions.length = 3 * cv ∧
        m.indices.length = ci))
    (hs : (s.accumulators = [] ∧ vc = 0 ∧ ic = 0) ∨
      (∃ acc, s.accumulators = [(c, acc)] ∧ acc.vertexCount = vc ∧
        acc.positions.length = 3 * vc ∧ acc.indices.length = ic)) :
    ((mergeChunkIntoBatch s r).accumulators = [] ∧ vc + cv = 0 ∧ ic + ci = 0) ∨
    (∃ acc, (mergeChunkIntoBatch s r).accumulators = [(c, acc)] ∧
      acc.vertexCount = vc + cv ∧ acc.positions.length = 3 * (vc + cv) ∧
      acc.indices.length = ic + ci) := by
  obtain ⟨accs, bmode⟩ := s
  rcases hr with ⟨hr1, hr2, hr3⟩ | ⟨m, hr1, hr2, hr3, hr4⟩
  · rw [mergeChunkIntoBatch, hr1]
    subst hr2
    subst hr3
    simpa using hs
  · rw [mergeChunkIntoBatch, hr1]
    simp only [List.foldl_cons, List.foldl_nil]
    rcases hs with ⟨hs1, hs2, hs3⟩ | ⟨acc0, hs1, hs2, hs3, hs4⟩ <;>
      simp only at hs1 <;> subst hs1
    · right
      rw [mergeMeshIntoBatch]
      simp only [List.any_nil, Bool.false_eq_true, if_false, List.nil_append,
        reduceIte]
      refine ⟨_, by rw [hr2], ?_, ?_, ?_⟩ <;>
        simp only [emptyAccumulator, List.nil_append, List.length_map,
          List.length_append, List.length_nil, hr3, hr4] <;>
        omega
    · right
      rw [mergeMeshIntoBatch]
      simp only [List.any_cons, List.any_nil, hr2, decide_eq_true_eq,
        Bool.or_false]
      rw [if_pos (by simp), List.map_cons, List.map_nil, if_pos rfl]
      refine ⟨_, rfl, ?_, ?_, ?_⟩ <;>
        simp only [List.length_map, List.length_append, hr3, hr4, hs2, hs3, hs4] <;>
        omega

theorem finishBatch_totals (s : BuilderState) (c : String) (vc ic : ℕ)
    (hs : (s.accumulators = [] ∧ vc = 0 ∧ ic = 0) ∨
      (∃ acc, s.accumulators = [(c, acc)] ∧ acc.vertexCount = vc ∧
        acc.positions.length = 3 * vc ∧ acc.indices.length = ic))
    (hzero : vc = 0 → ic = 0) :
    categoryVertexTotal (finishBatch s).1 c = vc ∧
    categoryIndexTotal (finishBatch s).1 c = ic := by
  rcases hs with ⟨hs1, hs2, hs3⟩ | ⟨acc, hs1, hs2, hs3, hs4⟩
  · subst hs2
    subst hs3
    constructor <;> simp [categoryVertexTotal, categoryIndexTotal, finishBatch, hs1]
  · by_cases hvz : acc.vertexCount = 0
    · have hvc : vc = 0 := by omega
      have hic : ic = 0 := hzero hvc
      constructor
      · rw [categoryVertexTotal]
        simp only [finishBatch]
        rw [hs1, filterMap_single, if_pos hvz]
        simp [hvc]
      · rw [categoryIndexTotal]
        simp only [finishBatch]
        rw [hs1, filterMap_single, if_pos hvz]
        simp [hic]
    · refine ⟨?_, ?_⟩
      · rw [categoryVertexTotal]
        simp only [finishBatch]
        rw [hs1, filterMap_single, if_neg hvz]
        simp [hs3]
      · rw [categoryIndexTotal]
        simp only [finishBatch]
        rw [hs1, filterMap_single, if_neg hvz]
        simp [hs4]

/-- Claim C1 (amended): when no palette entry sets occlusion flags, every geometry
with at least 3 indices has at least 3 positions, and all blocks of both chunks map
to the single category c, the batch pipeline (startBatch, two chunk merges,
finishBatch) yields the same per-category vertex and index totals as one buildChunk
call over the concatenated block list. Without the no-occlusion hypothesis the
original claim fails: cross-chunk neighbor culling sees the other chunk in the
single call but not in the per-chunk batch builds. -/
theorem claim_C1_batch_totals (palette : Palette) (b1 b2 : List Block) (c : String)
    (o1x o1y o1z o2x o2y o2z ox oy oz : ℤ)
    (hno : ∀ oe ∈ palette, ∀ e, oe = some e → e.occlusionFlags = 0)
    (hgeom : ∀ oe ∈ palette, ∀ e, oe = some e → ∀ g ∈ e.geometries,
      3 ≤ g.indices.length → 3 ≤ g.positions.length)
    (hcat : ∀ b ∈ b1 ++ b2, catOf palette b.pal = some c) :
    categoryVertexTotal (buildTwoChunkBatch palette b1 b2 o1x o1y o1z o2x o2y o2z) c =
      categoryVertexTotal (buildChunk palette (b1 ++ b2) ox oy oz) c ∧
    categoryIndexTotal (buildTwoChunkBatch palette b1 b2 o1x o1y o1z o2x o2y o2z) c =
      categoryIndexTotal (buildChunk palette (b1 ++ b2) ox oy oz) c := by
  have hcat1 : ∀ b ∈ b1, catOf palette b.pal = some c :=
    fun b hb => hcat b (List.mem_append_left _ hb)
  have hcat2 : ∀ b ∈ b2, catOf palette b.pal = some c :=
    fun b hb => hcat b (List.mem_append_right _ hb)
  have h1 := buildChunk_cases palette b1 c o1x o1y o1z hno hgeom hcat1
  have h2 := buildChunk_cases palette b2 c o2x o2y o2z hno hgeom hcat2
  have hs0 : ((startBatch initialBuilder).accumulators = [] ∧ 0 = 0 ∧ 0 = 0) ∨
      (∃ acc, (startBatch initialBuilder).accumulators = [(c, acc)] ∧
        acc.vertexCount = 0 ∧ acc.positions.length = 3 * 0 ∧
        acc.indices.length = 0) :=
    Or.inl ⟨rfl, rfl, rfl⟩
  have hs1 := mergeChunk_accState (startBatch initialBuilder)
    (buildChunk palette b1 o1x o1y o1z) c 0 0
    (catW geomSurvVerts palette b1 c) (catW geomSurvIdx palette b1 c) h1 hs0
  have hs2 := mergeChunk_accState _ (buildChunk palette b2 o2x o2y o2z) c
    (0 + catW geomSurvVerts palette b1 c) (0 + catW geomSurvIdx palette b1 c)
    (catW geomSurvVerts palette b2 c) (catW geomSurvIdx palette b2 c) h2 hs1
  have hzero : 0 + catW geomSurvVerts palette b1 c +
      catW geomSurvVerts palette b2 c = 0 →
      0 + catW geomSurvIdx palette b1 c + catW geomSurvIdx palette b2 c = 0 := by
    intro h
    have z1 : catW geomSurvVerts palette b1 c = 0 := by omega
    have z2 : catW geomSurvVerts palette b2 c = 0 := by omega
    have w1 := catSurvIdx_zero_of_survVerts_zero palette b1 c hgeom z1
    have w2 := catSurvIdx_zero_of_survVerts_zero palette b2 c hgeom z2
    omega
  have hfin := finishBatch_totals _ c _ _ hs2 hzero
  have hsingle := buildChunk_totals palette (b1 ++ b2) c ox oy oz hno hgeom hcat
  rw [catW_append geomSurvVerts palette b1 b2 c] at hsingle
  rw [catW_append geomSurvIdx palette b1 b2 c] at hsingle
  constructor
  · rw [buildTwoChunkBatch, hfin.1, hsingle.1]
    omega
  · rw [buildTwoChunkBatch, hfin.2, hsingle.2]
    omega

/-- Witness for claim C1 at a concrete no-occlusion palette and two one-block
chunks of category custom. -/
theorem claim_C1_batch_totals_witness :
    categoryVertexTotal (buildTwoChunkBatch noOccPalette [⟨0, 0, 0, 0⟩] [⟨1, 0, 0, 0⟩]
      0 0 0 0 0 0) "custom" =
      categoryVertexTotal (buildChunk noOccPalette ([⟨0, 0, 0, 0⟩] ++ [⟨1, 0, 0, 0⟩])
        0 0 0) "custom" ∧
    categoryIndexTotal (buildTwoChunkBatch noOccPalette [⟨0, 0, 0, 0⟩] [⟨1, 0, 0, 0⟩]
      0 0 0 0 0 0) "custom" =
      categoryIndexTotal (buildChunk noOccPalette ([⟨0, 0, 0, 0⟩] ++ [⟨1, 0, 0, 0⟩])
        0 0 0) "custom" :=
  claim_C1_batch_totals noOccPalette [⟨0, 0, 0, 0⟩] [⟨1, 0, 0, 0⟩] "custom"
    0 0 0 0 0 0 0 0 0
    (by
      intro oe hoe e he
      rcases List.mem_singleton.mp hoe with rfl
      cases he
      rfl)
    (by
      intro oe hoe e he g hg _
      rcases List.mem_singleton.mp hoe with rfl
      cases he
      rcases List.mem_singleton.mp hg with rfl
      norm_num [triGeom])
    (by
      intro b hb
      rcases List.mem_append.mp hb with hb1 | hb1 <;>
        rcases List.mem_singleton.mp hb1 with rfl <;> rfl)

set_option maxHeartbeats 3000000 in
/-- Claim C1 counterexample to the original statement: with palette entry 1
occluding west and both entries in category custom, the batch pipeline keeps
both triangles (6 vertices, 6 indices) while the single buildChunk over the
concatenation culls one of them (3 vertices, 3 indices), so the totals differ
even though the input is restricted to one category. -/
theorem claim_C1_counterexample :
    categoryVertexTotal (buildTwoChunkBatch cexPalette cexB1 cexB2 0 0 0 0 0 0)
      "custom" = 6 ∧
    categoryIndexTotal (buildTwoChunkBatch cexPalette cexB1 cexB2 0 0 0 0 0 0)
      "custom" = 6 ∧
    categoryVertexTotal (buildChunk cexPalette (cexB1 ++ cexB2) 0 0 0)
      "custom" = 3 ∧
    categoryIndexTotal (buildChunk cexPalette (cexB1 ++ cexB2) 0 0 0)
      "custom" = 3 := by
  refine ⟨?_, ?_, ?_, ?_⟩ <;>
  repeat first
  | rfl
  | (fail_if_no_progress
      norm_num [categoryVertexTotal, categoryIndexTotal, buildTwoChunkBatch,
        startBatch, initialBuilder, mergeChunkIntoBatch, mergeMeshIntoBatch,
        finishBatch, emptyAccumulator,
        buildChunk, cexPalette, cexB1, cexB2, triGeom, calculateBounds,
        buildVoxelMap, gridIndex, categoriesOf, catOf, mergeCategoryGeometries,
        instancesFor, sortedPals, palsFor, blocksFor, List.dedup, List.insertionSort,
        List.orderedInsert, mergeInstance, validIndicesOf, triangleVisible, flushCheck,
        roundAway, neighborFaceIndex, vertexPos, vertexNormal, vertexUV, quantizePos,
        quantizeNormal, i16Sat, i8Sat, ratTrunc, updateGroups, MergeState.initial,
        List.range, List.range.loop, List.foldl, List.flatMap, List.filter,
        List.filterMap, abs_lt, le_abs, Int.toNat_ofNat, List.getElem?_set,
        List.getElem?_replicate, Int.floor_eq_iff])
  | (fail_if_no_progress
      simp [categoryVertexTotal, categoryIndexTotal, buildTwoChunkBatch,
        startBatch, initialBuilder, mergeChunkIntoBatch, mergeMeshIntoBatch,
        finishBatch, emptyAccumulator,
        buildChunk, cexPalette, cexB1, cexB2, triGeom, calculateBounds,
        buildVoxelMap, gridIndex, categoriesOf, catOf, mergeCategoryGeometries,
        instancesFor, sortedPals, palsFor, blocksFor, List.dedup, List.insertionSort,
        List.orderedInsert, mergeInstance, validIndicesOf, triangleVisible, flushCheck,
        roundAway, neighborFaceIndex, vertexPos, vertexNormal, vertexUV, quantizePos,
        quantizeNormal, i16Sat, i8Sat, ratTrunc, updateGroups, MergeState.initial,
        List.range, List.range.loop, List.foldl, List.flatMap, List.filter,
        List.filterMap, abs_lt, le_abs, List.getElem?_set, List.getElem?_replicate])

end MeshWasm
